import Mathlib

/-!
Verification of the NutriAI meal-photo analyzer (src/script.js).

This file gives a shallow embedding of the script's pipeline:

* `Json` models the values produced by the JavaScript `JSON.parse`
  (numbers are modelled as integers: the nutrition schema and every value
  the script manipulates are integral; IEEE float semantics are out of
  scope of the embedding).
* `JSON_parse` / `JSON_stringify` model the JavaScript built-ins on that
  fragment (object member order is kept as parsed, duplicate keys are kept
  in the member list and resolved last-wins by `lookupLast`, matching the
  observable behaviour of JS objects built by `JSON.parse`).
* `jsMatchFirst` models `text.match(/```json\s*([\s\S]*?)\s*```|({[\s\S]*})/)`:
  the leftmost position wins, the fence alternative is tried before the
  brace alternative at each position, `\s*` around the fenced group is
  greedy/lazy exactly as in the regex, and the brace alternative grabs
  greedily from its opening brace to the last closing brace of the text.
* `extractJson`, `displayResults`, `resetToInitialView`,
  `analyzeImageOutcome` / `analyzeImageRun` are line-by-line translations
  of the corresponding functions of src/script.js, with `alert` calls and
  DOM mutations reified in `Outcome` / `AppState`.

JavaScript coercions used by the script are modelled on the fragment the
data model can reach: `truthy` is exact; `toNumber` (used by `Math.round`)
is exact on null/booleans/numbers and covers the integer-literal fragment
of string-to-number coercion (decimal, hex and exponent literals of JS are
not representable by `Json.num` anyway); array/object operands go through
their string conversion as in JS.  Template interpolation uses
`jsToStr` (JS `ToString`).
-/

set_option maxHeartbeats 1000000

namespace NutriAI

/-- JSON values as produced by `JSON.parse` (integer-number fragment). -/
inductive Json where
  | null
  | bool (b : Bool)
  | num (n : Int)
  | str (s : String)
  | arr (elems : List Json)
  | obj (members : List (String × Json))

/-- Characters of a string literal. -/
def toL (s : String) : List Char := s.data

/-- ASCII decimal digit test. -/
def isDigit (c : Char) : Bool := 48 ≤ c.toNat && c.toNat ≤ 57

/-- ASCII hexadecimal digit test. -/
def isHex (c : Char) : Bool :=
  isDigit c || (97 ≤ c.toNat && c.toNat ≤ 102) || (65 ≤ c.toNat && c.toNat ≤ 70)

/-- Value of a hexadecimal digit. -/
def hexVal (c : Char) : Nat :=
  if isDigit c then c.toNat - 48
  else if 97 ≤ c.toNat then c.toNat - 87
  else c.toNat - 55

/-- JSON insignificant whitespace (RFC 8259: space, tab, line feed, carriage return). -/
def isJsonWs (c : Char) : Bool := c == ' ' || c == '\t' || c == '\n' || c == '\r'

/-- The JS regex class `\s`, restricted to its ASCII members (the unicode
space variants cannot occur in the texts the claims quantify over). -/
def isJsWs (c : Char) : Bool := isJsonWs c || c == '\x0b' || c == '\x0c'

/-- Decimal digits, fueled so that the kernel can evaluate it (the fuel
`n + 1` always dominates the number of divisions by 10). -/
def natDigitsAux : Nat → Nat → List Char
  | 0, _ => []
  | fuel + 1, n =>
    if n < 10 then [Nat.digitChar n]
    else natDigitsAux fuel (n / 10) ++ [Nat.digitChar (n % 10)]

/-- Decimal digits of a natural number, most significant first. -/
def natDigits (n : Nat) : List Char := natDigitsAux (n + 1) n

/-- Numeric value of a digit list, most significant first. -/
def digitsVal (ds : List Char) : Nat := ds.foldl (fun a c => a * 10 + (c.toNat - 48)) 0

/-- Decimal rendering of an integer (JS `ToString` on an integral number). -/
def serInt (n : Int) : List Char :=
  if n < 0 then '-' :: natDigits n.natAbs else natDigits n.toNat

/-- `JSON.stringify` escaping of one string character. -/
def escChar (c : Char) : List Char :=
  if c = '"' then ['\\', '"']
  else if c = '\\' then ['\\', '\\']
  else if c = '\x08' then ['\\', 'b']
  else if c = '\x09' then ['\\', 't']
  else if c = '\x0a' then ['\\', 'n']
  else if c = '\x0c' then ['\\', 'f']
  else if c = '\x0d' then ['\\', 'r']
  else if c.toNat < 32 then
    ['\\', 'u', '0', '0', Nat.digitChar (c.toNat / 16), Nat.digitChar (c.toNat % 16)]
  else [c]

/-- `JSON.stringify` escaping of a string body. -/
def escString : List Char → List Char
  | [] => []
  | c :: cs => escChar c ++ escString cs

/-- A serialized JSON string (quotes included). -/
def serStr (s : List Char) : List Char := '"' :: (escString s ++ ['"'])

mutual

/-- `JSON.stringify` (no indentation), on character lists. -/
def serVal : Json → List Char
  | Json.null => toL "null"
  | Json.bool true => toL "true"
  | Json.bool false => toL "false"
  | Json.num n => serInt n
  | Json.str s => serStr s.data
  | Json.arr [] => toL "[]"
  | Json.arr (v :: vs) => '[' :: (serVal v ++ serElems vs ++ [']'])
  | Json.obj [] => toL "\x7b\x7d"
  | Json.obj (m :: ms) => '{' :: (serMember m ++ serMembers ms ++ ['}'])

/-- Continuation elements of a serialized array (each preceded by a comma). -/
def serElems : List Json → List Char
  | [] => []
  | v :: vs => ',' :: (serVal v ++ serElems vs)

/-- One serialized object member. -/
def serMember : String × Json → List Char
  | (k, v) => serStr k.data ++ ':' :: serVal v

/-- Continuation members of a serialized object (each preceded by a comma). -/
def serMembers : List (String × Json) → List Char
  | [] => []
  | m :: ms => ',' :: (serMember m ++ serMembers ms)

end

/-- `JSON.stringify` of a value, as a string. -/
def JSON_stringify (v : Json) : String := String.mk (serVal v)

/-- Drop leading JSON whitespace. -/
def skipWs : List Char → List Char
  | [] => []
  | c :: cs => if isJsonWs c then skipWs cs else c :: cs

/-- Prepend a character to the string accumulated by a parser result. -/
def consMap (c : Char) : Option (List Char × List Char) → Option (List Char × List Char)
  | some (s, r) => some (c :: s, r)
  | none => none

/-- Body of a JSON string literal, after the opening quote: returns the decoded
characters and the remainder after the closing quote.  Mirrors the grammar
accepted by `JSON.parse` (raw control characters are rejected). -/
def parseStringBody : List Char → Option (List Char × List Char)
  | [] => none
  | c :: rest =>
    if c = '"' then some ([], rest)
    else if c = '\\' then
      match rest with
      | [] => none
      | e :: rest2 =>
        if e = '"' then consMap '"' (parseStringBody rest2)
        else if e = '\\' then consMap '\\' (parseStringBody rest2)
        else if e = '/' then consMap '/' (parseStringBody rest2)
        else if e = 'b' then consMap '\x08' (parseStringBody rest2)
        else if e = 'f' then consMap '\x0c' (parseStringBody rest2)
        else if e = 'n' then consMap '\x0a' (parseStringBody rest2)
        else if e = 'r' then consMap '\x0d' (parseStringBody rest2)
        else if e = 't' then consMap '\x09' (parseStringBody rest2)
        else if e = 'u' then
          match rest2 with
          | h1 :: h2 :: h3 :: h4 :: rest3 =>
            if isHex h1 && isHex h2 && isHex h3 && isHex h4 then
              consMap (Char.ofNat (((hexVal h1 * 16 + hexVal h2) * 16 + hexVal h3) * 16 + hexVal h4))
                (parseStringBody rest3)
            else none
          | _ => none
        else none
    else if c.toNat < 32 then none
    else consMap c (parseStringBody rest)

/-- Split off a maximal leading run of decimal digits. -/
def grabDigits : List Char → List Char × List Char
  | [] => ([], [])
  | c :: cs =>
    if isDigit c then
      let p := grabDigits cs
      (c :: p.1, p.2)
    else ([], c :: cs)

/-- An unsigned JSON integer literal (no leading zeros). -/
def parseNat (cs : List Char) : Option (Nat × List Char) :=
  let p := grabDigits cs
  match p.1 with
  | [] => none
  | d :: ds => if d = '0' && !ds.isEmpty then none else some (digitsVal (d :: ds), p.2)

/-- A list that does not start with a decimal digit (used to state that a
serialized number is followed by a delimiter, so parsing stops there). -/
def noDigitHead : List Char → Bool
  | [] => true
  | c :: _ => !isDigit c

/-- Expect a literal character sequence. -/
def expectLit : List Char → List Char → Option (List Char)
  | [], cs => some cs
  | _ :: _, [] => none
  | l :: ls, c :: cs => if c = l then expectLit ls cs else none

mutual

/-- Fueled recursive-descent parser for one JSON value (integer-number
fragment of the `JSON.parse` grammar).  The fuel only bounds the recursion
depth; `JSON_parse` supplies enough fuel for every input. -/
def parseVal : Nat → List Char → Option (Json × List Char)
  | 0, _ => none
  | fuel + 1, cs0 =>
    match skipWs cs0 with
    | [] => none
    | c :: cs =>
      if c = 'n' then
        match expectLit (toL "ull") cs with
        | some r => some (Json.null, r)
        | none => none
      else if c = 't' then
        match expectLit (toL "rue") cs with
        | some r => some (Json.bool true, r)
        | none => none
      else if c = 'f' then
        match expectLit (toL "alse") cs with
        | some r => some (Json.bool false, r)
        | none => none
      else if c = '"' then
        match parseStringBody cs with
        | some (s, r) => some (Json.str (String.mk s), r)
        | none => none
      else if c = '-' then
        match parseNat cs with
        | some (m, r) => some (Json.num (-(m : Int)), r)
        | none => none
      else if isDigit c then
        match parseNat (c :: cs) with
        | some (m, r) => some (Json.num (m : Int), r)
        | none => none
      else if c = '[' then
        match skipWs cs with
        | ']' :: r => some (Json.arr [], r)
        | cs1 =>
          match parseVal fuel cs1 with
          | some (v, r) =>
            match parseElems fuel r with
            | some (vs, r2) => some (Json.arr (v :: vs), r2)
            | none => none
          | none => none
      else if c = '{' then
        match skipWs cs with
        | '}' :: r => some (Json.obj [], r)
        | cs1 =>
          match parseMember fuel cs1 with
          | some (m, r) =>
            match parseMembers fuel r with
            | some (ms, r2) => some (Json.obj (m :: ms), r2)
            | none => none
          | none => none
      else none

/-- Array continuation: a comma followed by a value, or the closing bracket. -/
def parseElems : Nat → List Char → Option (List Json × List Char)
  | 0, _ => none
  | fuel + 1, cs0 =>
    match skipWs cs0 with
    | ']' :: r => some ([], r)
    | ',' :: r =>
      match parseVal fuel r with
      | some (v, r1) =>
        match parseElems fuel r1 with
        | some (vs, r2) => some (v :: vs, r2)
        | none => none
      | none => none
    | _ => none

/-- One object member: a string key, a colon, a value. -/
def parseMember : Nat → List Char → Option ((String × Json) × List Char)
  | 0, _ => none
  | fuel + 1, cs0 =>
    match skipWs cs0 with
    | [] => none
    | c :: cs =>
      if c = '"' then
        match parseStringBody cs with
        | some (k, r) =>
          match skipWs r with
          | ':' :: r1 =>
            match parseVal fuel r1 with
            | some (v, r2) => some ((String.mk k, v), r2)
            | none => none
          | _ => none
        | none => none
      else none

/-- Object continuation: a comma followed by a member, or the closing brace. -/
def parseMembers : Nat → List Char → Option (List (String × Json) × List Char)
  | 0, _ => none
  | fuel + 1, cs0 =>
    match skipWs cs0 with
    | '}' :: r => some ([], r)
    | ',' :: r =>
      match parseMember fuel r with
      | some (m, r1) =>
        match parseMembers fuel r1 with
        | some (ms, r2) => some (m :: ms, r2)
        | none => none
      | none => none
    | _ => none

end

/-- `JSON.parse` on character lists: one value surrounded by optional
whitespace, error (the thrown `SyntaxError`) otherwise.  The fuel
`cs.length + 1` dominates the recursion depth of any parse of `cs`. -/
def JSON_parse (cs : List Char) : Except String Json :=
  match parseVal (cs.length + 1) cs with
  | some (v, rest) =>
    if skipWs rest = [] then Except.ok v
    else Except.error "SyntaxError: unexpected trailing characters"
  | none => Except.error "SyntaxError: invalid JSON"

/-- Literal-sequence test at the head of a character list. -/
def startsWithChars : List Char → List Char → Bool
  | [], _ => true
  | _ :: _, [] => false
  | p :: ps, c :: cs => p == c && startsWithChars ps cs

/-- Does the sequence `pat` occur anywhere in the text? -/
def hasSeq (pat : List Char) : List Char → Bool
  | [] => startsWithChars pat []
  | c :: cs => startsWithChars pat (c :: cs) || hasSeq pat cs

/-- The three backticks closing a fenced block. -/
def threeTicks : List Char := toL "```"

/-- The literal that opens a JSON-labeled fenced block. -/
def fenceLit : List Char := toL "```json"

/-- Characters before the first occurrence of three backticks (the lazy
group of the fence alternative stops at the earliest closing fence). -/
def findClose : List Char → Option (List Char)
  | [] => none
  | c :: cs =>
    if startsWithChars threeTicks (c :: cs) then some []
    else
      match findClose cs with
      | some p => some (c :: p)
      | none => none

/-- Remove trailing regex whitespace (the trailing greedy `\s*` of the
fence pattern). -/
def dropTailWs (l : List Char) : List Char := (l.reverse.dropWhile isJsWs).reverse

/-- Fence alternative of the regex at one position: matches
`` ```json\s*([\s\S]*?)\s*``` `` and yields the captured group. -/
def tryFenceAt (cs : List Char) : Option (List Char) :=
  if startsWithChars fenceLit cs then
    match findClose ((cs.drop 7).dropWhile isJsWs) with
    | some p => some (dropTailWs p)
    | none => none
  else none

/-- The text up to and including its last closing brace, if any. -/
def upToLastBrace (cs : List Char) : Option (List Char) :=
  match cs.reverse.dropWhile (fun c => !(c == '}')) with
  | [] => none
  | r => some r.reverse

/-- Brace alternative of the regex at one position: `({[\s\S]*})` grabs
greedily from an opening brace here to the last closing brace of the text. -/
def tryBraceAt : List Char → Option (List Char)
  | '{' :: rest => upToLastBrace ('{' :: rest)
  | _ => none

/-- Which regex alternative matched, with its captured group. -/
inductive RegexMatch where
  | fence (g : List Char)
  | brace (g : List Char)

/-- `text.match(re)` for the extraction regex: scan positions left to
right, trying the fence alternative before the brace alternative. -/
def jsMatchFirst : List Char → Option RegexMatch
  | [] => none
  | c :: cs =>
    match tryFenceAt (c :: cs) with
    | some g => some (RegexMatch.fence g)
    | none =>
      match tryBraceAt (c :: cs) with
      | some g => some (RegexMatch.brace g)
      | none => jsMatchFirst cs

/-- The JS expression `match[1] || match[2]`: an empty fenced group is
falsy, so the undefined `match[2]` is chosen and `JSON.parse(undefined)`
throws (modelled as `none`, which `extractJson` turns into null). -/
def jsonStringOf : RegexMatch → Option (List Char)
  | RegexMatch.fence g => if g = [] then none else some g
  | RegexMatch.brace g => some g

/-- `extractJson` of src/script.js lines 195-206, on character lists:
match the regex, pick `match[1] || match[2]`, `JSON.parse` it, and return
null (here `none`) when the match or the parse fails. -/
def extractJsonL (text : List Char) : Option Json :=
  match jsMatchFirst text with
  | none => none
  | some m =>
    match jsonStringOf m with
    | none => none
    | some cand =>
      match JSON_parse cand with
      | Except.ok v => some v
      | Except.error _ => none

/-- `extractJson` on strings. -/
def extractJson (text : String) : Option Json := extractJsonL text.data

/-- JS truthiness of a JSON value (exact). -/
def truthy : Json → Bool
  | Json.null => false
  | Json.bool b => b
  | Json.num n => !(n == 0)
  | Json.str s => !(s == "")
  | Json.arr _ => true
  | Json.obj _ => true

/-- JS truthiness with `none` playing the role of `undefined`. -/
def truthyOpt : Option Json → Bool
  | none => false
  | some v => truthy v

mutual

/-- JS `ToString` of a JSON value, as used by template interpolation:
`null` prints "null", arrays join their elements with commas (null
elements print as empty), objects print "[object Object]". -/
def jsToStrV : Json → List Char
  | Json.null => toL "null"
  | Json.bool true => toL "true"
  | Json.bool false => toL "false"
  | Json.num n => serInt n
  | Json.str s => s.data
  | Json.arr l => jsToStrElems l
  | Json.obj _ => toL "[object Object]"

/-- `Array.prototype.toString`: elements joined with commas, nullish
elements rendered empty. -/
def jsToStrElems : List Json → List Char
  | [] => []
  | [Json.null] => []
  | [v] => jsToStrV v
  | Json.null :: vs => ',' :: jsToStrElems vs
  | v :: vs => jsToStrV v ++ ',' :: jsToStrElems vs

end

/-- JS `ToString` on strings. -/
def jsToStr (v : Json) : String := String.mk (jsToStrV v)

/-- Interpolation of a possibly-undefined value: `undefined` prints as
"undefined" in a template literal. -/
def jsToStrOpt : Option Json → String
  | none => "undefined"
  | some v => jsToStr v

/-- Trim JS whitespace on both ends (the first step of `Number(string)`). -/
def jsTrim (cs : List Char) : List Char :=
  ((cs.dropWhile isJsWs).reverse.dropWhile isJsWs).reverse

/-- The digits-only part of JS string-to-number coercion. -/
def natPartNum (ds : List Char) : Option Int :=
  if !ds.isEmpty && ds.all isDigit then some ((digitsVal ds : Nat) : Int) else none

/-- JS `Number(string)` on the integer-literal fragment: trimmed empty
string is 0, an optional sign followed by digits is that integer,
anything else is NaN (`none`).  (Decimal, exponent and hex literals of JS
are outside the integral value model.) -/
def strToNumber (cs : List Char) : Option Int :=
  match jsTrim cs with
  | [] => some 0
  | '+' :: ds => natPartNum ds
  | '-' :: ds => (natPartNum ds).map (fun n => -n)
  | ds => natPartNum ds

/-- JS `ToNumber` on JSON values (`none` is NaN): exact on null, booleans
and numbers; strings via `strToNumber`; arrays and objects through their
string conversion as in JS `ToPrimitive`. -/
def toNumber : Json → Option Int
  | Json.null => some 0
  | Json.bool b => some (if b then 1 else 0)
  | Json.num n => some n
  | Json.str s => strToNumber s.data
  | Json.arr l => strToNumber (jsToStrV (Json.arr l))
  | Json.obj l => strToNumber (jsToStrV (Json.obj l))

/-- `ToNumber` with `none` as `undefined` (which coerces to NaN). -/
def toNumberOpt : Option Json → Option Int
  | none => none
  | some v => toNumber v

/-- Property lookup on an object's member list; the last binding wins,
as in a JS object built by `JSON.parse` with duplicate keys. -/
def lookupLast : List (String × Json) → String → Option Json
  | [], _ => none
  | (k, v) :: rest, key =>
    match lookupLast rest key with
    | some r => some r
    | none => if k = key then some v else none

/-- Property access on a defined, non-null base: objects look up the key,
other primitives have none of the script's keys. -/
def getMember : Json → String → Option Json
  | Json.obj l, k => lookupLast l k
  | _, _ => none

/-- JS property access `base.key` where the base may be `undefined`
(`none`) or null: those two throw a TypeError. -/
def getProp : Option Json → String → Except Unit (Option Json)
  | none, _ => Except.error ()
  | some Json.null, _ => Except.error ()
  | some v, k => Except.ok (getMember v k)

/-- Decimal string of an integer. -/
def intToStr (n : Int) : String := String.mk (serInt n)

/-- The interpolation `${Math.round(total_calories) || 'N/A'}` of
script.js line 215: both NaN and a rounded value of 0 are falsy. -/
def totalCaloriesDisp (tc : Option Json) : String :=
  match toNumberOpt tc with
  | some n => if n = 0 then "N/A" else intToStr n
  | none => "N/A"

/-- The interpolation `${macronutrients.X || 0}` of lines 223-235. -/
def macroDisp (v : Option Json) : String :=
  match v with
  | some x => if truthy x then jsToStr x else "0"
  | none => "0"

/-- The interpolation `${micronutrients.X ?? 'N/A'}` of lines 245-246:
null-coalescing, so only `undefined` and null fall back. -/
def microDisp : Option Json → String
  | none => "N/A"
  | some Json.null => "N/A"
  | some v => jsToStr v

/-- `(confidence_score || 'medium').toLowerCase()` of line 211: a falsy
score falls back to the string "medium"; a truthy non-string has no
`toLowerCase` method, so the expression throws a TypeError. -/
def confClassOf : Option Json → Except Unit String
  | none => Except.ok "medium"
  | some v =>
    if truthy v then
      match v with
      | Json.str s => Except.ok s.toLower
      | _ => Except.error ()
    else Except.ok "medium"

/-- The interpolation `${confidence_score || 'Medium'}` of line 218. -/
def confDispOf : Option Json → String
  | none => "Medium"
  | some v => if truthy v then jsToStr v else "Medium"

/-- The interpolation `${health_tips || 'Enjoy your meal mindfully!'}`. -/
def healthTipsDisp (v : Option Json) : String :=
  if truthyOpt v then jsToStrOpt v else "Enjoy your meal mindfully!"

/-- `${Math.round(item.calories)}`: NaN prints as "NaN". -/
def roundDisp : Option Int → String
  | some n => intToStr n
  | none => "NaN"

/-- The placeholder list entry of line 241. -/
def placeholderItem : String := "No specific items identified."

/-- One entry of the items list: `${item.item} (~${Math.round(item.calories)} kcal)`.
A null element throws on the property access. -/
def renderItem : Json → Except Unit String
  | Json.null => Except.error ()
  | v =>
    Except.ok (jsToStrOpt (getMember v "item") ++ " (~"
      ++ roundDisp (toNumberOpt (getMember v "calories")) ++ " kcal)")

/-- JS `x > 0` under numeric coercion (NaN compares false). -/
def jsGtZero (v : Json) : Bool :=
  match toNumber v with
  | some n => decide (0 < n)
  | none => false

/-- `items && items.length > 0 ? items.map(...) : placeholder` of line 241:
arrays map each element (which can throw on null items); a non-empty
string passes the length test but has no `map`, so it throws; objects
consult their `length` property; every other value falls to the
placeholder. -/
def renderItems : Option Json → Except Unit (List String)
  | some (Json.arr l) =>
    if 0 < l.length then l.mapM renderItem else Except.ok [placeholderItem]
  | some (Json.str s) =>
    if s = "" then Except.ok [placeholderItem] else Except.error ()
  | some (Json.obj l) =>
    match lookupLast l "length" with
    | some lv => if jsGtZero lv then Except.error () else Except.ok [placeholderItem]
    | none => Except.ok [placeholderItem]
  | _ => Except.ok [placeholderItem]

/-- The user-visible pieces assembled by `displayResults` (the interpolated
values of the template literal of lines 213-250; the surrounding markup
adds the units: "g" after each macro- and micronutrient value except
sodium's "mg", and "kcal" after the total). -/
structure RenderedView where
  totalCalories : String
  confidenceClass : String
  confidence : String
  protein : String
  carbs : String
  fat : String
  fiber : String
  itemsHtml : List String
  sugar : String
  sodium : String
  healthTips : String

/-- Is this JSON value the null literal?  Destructuring or accessing a
property of null throws in JS. -/
def isNullJ : Json → Bool
  | Json.null => true
  | _ => false

/-- `displayResults` of src/script.js lines 208-258: destructure the data
(throws on a nullish `data`), destructure `nutrition_summary` (the three
`getProp` calls model `const { total_calories, macronutrients,
micronutrients } = nutrition_summary`, which throws exactly when
`nutrition_summary` is nullish), compute the confidence class, then build
the view; the macro- and micronutrient property accesses throw when their
container is nullish.  An `Except.error` models the thrown TypeError,
which the caller's catch turns into the failure alert. -/
def displayResults (data : Json) : Except Unit RenderedView :=
  if isNullJ data then Except.error ()
  else
    let items := getMember data "items"
    let nutrition_summary := getMember data "nutrition_summary"
    let confidence_score := getMember data "confidence_score"
    let health_tips := getMember data "health_tips"
    match getProp nutrition_summary "total_calories", getProp nutrition_summary "macronutrients",
          getProp nutrition_summary "micronutrients" with
    | Except.ok total_calories, Except.ok macronutrients, Except.ok micronutrients =>
      match confClassOf confidence_score with
      | Except.error _ => Except.error ()
      | Except.ok cc =>
        match getProp macronutrients "protein_g", getProp macronutrients "carbs_g",
              getProp macronutrients "fat_g", getProp macronutrients "fiber_g" with
        | Except.ok pg, Except.ok cg, Except.ok fg, Except.ok fbg =>
          match renderItems items with
          | Except.error _ => Except.error ()
          | Except.ok its =>
            match getProp micronutrients "sugar_g", getProp micronutrients "sodium_mg" with
            | Except.ok sg, Except.ok sd =>
              Except.ok
                { totalCalories := totalCaloriesDisp total_calories
                  confidenceClass := cc
                  confidence := confDispOf confidence_score
                  protein := macroDisp pg
                  carbs := macroDisp cg
                  fat := macroDisp fg
                  fiber := macroDisp fbg
                  itemsHtml := its
                  sugar := microDisp sg
                  sodium := microDisp sd
                  healthTips := healthTipsDisp health_tips }
            | _, _ => Except.error ()
        | _, _, _, _ => Except.error ()
    | _, _, _ => Except.error ()

/-- Accessor `data.nutrition_summary` used to state the display claims. -/
def nsOf (data : Json) : Option Json := getMember data "nutrition_summary"

/-- Accessor `data.nutrition_summary.macronutrients`. -/
def macOf (data : Json) : Option Json :=
  (nsOf data).bind (fun ns => getMember ns "macronutrients")

/-- Accessor `data.nutrition_summary.micronutrients`. -/
def micOf (data : Json) : Option Json :=
  (nsOf data).bind (fun ns => getMember ns "micronutrients")

/-- Accessor `data.nutrition_summary.total_calories`. -/
def tcOf (data : Json) : Option Json :=
  (nsOf data).bind (fun ns => getMember ns "total_calories")

/-- Accessor for one macronutrient value. -/
def macValOf (data : Json) (k : String) : Option Json :=
  (macOf data).bind (fun m => getMember m k)

/-- Accessor for one micronutrient value. -/
def micValOf (data : Json) (k : String) : Option Json :=
  (micOf data).bind (fun m => getMember m k)

/-- The transport-level result of `fetch` + `response.json()`:
`Except.error` is a rejected fetch (network failure) carrying the error
message; a response carries `ok`, `status`, `statusText`, and its body as
parsed JSON (`none` when the body is not valid JSON, in which case
`response.json()` rejects). -/
structure HttpResponse where
  ok : Bool
  status : Nat
  statusText : String
  body : Option Json

/-- JS indexing `base[0]` (with the TypeError on a nullish base). -/
def getIdx0 : Option Json → Except Unit (Option Json)
  | none => Except.error ()
  | some Json.null => Except.error ()
  | some (Json.arr l) => Except.ok l.head?
  | some (Json.obj l) => Except.ok (lookupLast l "0")
  | some (Json.str s) => Except.ok (s.data.head?.map (fun c => Json.str (String.mk [c])))
  | some _ => Except.ok none

/-- `data.choices[0].message.content` of line 179, with each access
throwing on a nullish base. -/
def contentOf (data : Json) : Except Unit (Option Json) :=
  match getProp (some data) "choices" with
  | Except.error e => Except.error e
  | Except.ok choices =>
    match getIdx0 choices with
    | Except.error e => Except.error e
    | Except.ok c0 =>
      match getProp c0 "message" with
      | Except.error e => Except.error e
      | Except.ok msg => getProp msg "content"

/-- The user-visible outcome of one `analyzeImage` run: the configuration
alert plus reset, a rendered results view, or the catch-all failure alert
plus reset. -/
inductive Outcome where
  | configAlertReset
  | resultsShown (view : RenderedView)
  | failureAlertReset (msg : String)

/-- Engine-generated TypeError message (its exact text is engine specific
and irrelevant to the claims). -/
def typeErrorMsg : String := "TypeError"

/-- Engine-generated message of a rejected `response.json()`. -/
def bodyJsonErrorMsg : String := "SyntaxError: response body is not JSON"

/-- The message thrown on line 185. -/
def parseFailMsg : String := "Failed to parse JSON from AI response."

/-- The alert of line 145. -/
def configAlertMsg : String := "API key is not configured. Please set it up in your deployment process."

/-- The value the guard of line 144 compares against. -/
def guardPlaceholder : String := "__API_KEY__"

/-- The shipped value of the `API_KEY` constant, line 23 (the deployment
placeholder before any secret injection). -/
def API_KEY : String := "__NUTRI_AI_API_KEY__"

/-- `analyzeImage` of lines 143-193 as a function of the configured key
and the transport result (the request payload does not influence the
control flow).  Every throw inside the `try` lands in the catch, which
alerts `Analysis failed: ...` and resets. -/
def analyzeImageOutcome (apiKey : String) (fetchResult : Except String HttpResponse) : Outcome :=
  if apiKey = guardPlaceholder then Outcome.configAlertReset
  else
    match fetchResult with
    | Except.error m => Outcome.failureAlertReset ("Analysis failed: " ++ m)
    | Except.ok resp =>
      if resp.ok = false then
        Outcome.failureAlertReset
          ("Analysis failed: API Error: " ++ toString resp.status ++ " " ++ resp.statusText)
      else
        match resp.body with
        | none => Outcome.failureAlertReset ("Analysis failed: " ++ bodyJsonErrorMsg)
        | some data =>
          match contentOf data with
          | Except.error _ => Outcome.failureAlertReset ("Analysis failed: " ++ typeErrorMsg)
          | Except.ok content =>
            match content with
            | some (Json.str s) =>
              match extractJson s with
              | some v =>
                if truthy v then
                  match displayResults v with
                  | Except.ok view => Outcome.resultsShown view
                  | Except.error _ =>
                    Outcome.failureAlertReset ("Analysis failed: " ++ typeErrorMsg)
                else Outcome.failureAlertReset ("Analysis failed: " ++ parseFailMsg)
              | none => Outcome.failureAlertReset ("Analysis failed: " ++ parseFailMsg)
            | _ => Outcome.failureAlertReset ("Analysis failed: " ++ typeErrorMsg)

/-- The mutable UI state touched by the reset path: the active stream (a
list of track identifiers), the log of tracks on which `stop()` has been
called, the preview image source, the file input value, the rendered
results, the active view, and the log of alerts shown to the user. -/
structure AppState where
  currentStream : Option (List Nat)
  stoppedTracks : List Nat
  imagePreviewSrc : String
  uploadInputValue : String
  results : Option RenderedView
  activeView : String
  alerts : List String

/-- `resetToInitialView` of lines 54-65: stop every track of the active
stream, clear the stream, the preview, the file input and the results,
and show the initial view. -/
def resetToInitialView (s : AppState) : AppState :=
  { currentStream := none
    stoppedTracks := s.stoppedTracks ++ (match s.currentStream with | some ts => ts | none => [])
    imagePreviewSrc := ""
    uploadInputValue := ""
    results := none
    activeView := "initial-view"
    alerts := s.alerts }

/-- One `analyzeImage` run acting on the UI state: failure outcomes alert
and call `resetToInitialView`; success renders the results view. -/
def analyzeImageRun (apiKey : String) (fr : Except String HttpResponse) (s : AppState) : AppState :=
  match analyzeImageOutcome apiKey fr with
  | Outcome.configAlertReset => resetToInitialView { s with alerts := s.alerts ++ [configAlertMsg] }
  | Outcome.failureAlertReset m => resetToInitialView { s with alerts := s.alerts ++ [m] }
  | Outcome.resultsShown view => { s with results := some view, activeView := "results-view" }

/-- The spec's "full reset to the initial screen", relative to the state
before the run: the stream handle is cleared, `stop()` was called on every
track of the stream that was active, no captured image remains in the
preview or the file input, the results are cleared and the initial view is
active. -/
def FullReset (s s' : AppState) : Prop :=
  s'.currentStream = none ∧
  (∀ ts, s.currentStream = some ts → ∀ t ∈ ts, t ∈ s'.stoppedTracks) ∧
  s'.imagePreviewSrc = "" ∧
  s'.uploadInputValue = "" ∧
  s'.results = none ∧
  s'.activeView = "initial-view"

/-! ### Helper lemmas: whitespace, literals and digits -/

theorem skipWs_cons (c : Char) (cs : List Char) (h : isJsonWs c = false) :
    skipWs (c :: cs) = c :: cs := by
  simp [skipWs, h]

theorem expectLit_append (l rest : List Char) : expectLit l (l ++ rest) = some rest := by
  induction l with
  | nil => rfl
  | cons c cs ih => simp [expectLit, ih]

theorem isDigit_bounds (c : Char) (h : isDigit c = true) : 48 ≤ c.toNat ∧ c.toNat ≤ 57 := by
  simpa [isDigit, Bool.and_eq_true, decide_eq_true_iff] using h

theorem isDigit_ne (c : Char) (h : isDigit c = true) :
    c ≠ 'n' ∧ c ≠ 't' ∧ c ≠ 'f' ∧ c ≠ '"' ∧ c ≠ '-' ∧ c ≠ '[' ∧ c ≠ '{' ∧
    c ≠ ']' ∧ c ≠ '}' ∧ c ≠ ',' ∧ isJsonWs c = false := by
  have hb := isDigit_bounds c h
  refine ⟨?_, ?_, ?_, ?_, ?_, ?_, ?_, ?_, ?_, ?_, ?_⟩
  all_goals first
    | (intro he; subst he; exact absurd hb (by decide))
    | (simp only [isJsonWs, Bool.or_eq_false_iff, beq_eq_false_iff_ne]
       refine ⟨⟨⟨?_, ?_⟩, ?_⟩, ?_⟩ <;> (intro he; subst he; exact absurd hb (by decide)))

theorem natDigitsAux_fuel : ∀ (f1 f2 n : Nat), n < f1 → n < f2 →
    natDigitsAux f1 n = natDigitsAux f2 n := by
  intro f1
  induction f1 with
  | zero => intro f2 n h1 _; omega
  | succ f ih =>
    intro f2 n h1 h2
    cases f2 with
    | zero => omega
    | succ g =>
      simp only [natDigitsAux]
      by_cases hn : n < 10
      · rw [if_pos hn, if_pos hn]
      · rw [if_neg hn, if_neg hn, ih g (n / 10) (by omega) (by omega)]

theorem natDigits_eq (n : Nat) :
    natDigits n = if n < 10 then [Nat.digitChar n]
                  else natDigits (n / 10) ++ [Nat.digitChar (n % 10)] := by
  show natDigitsAux (n + 1) n = _
  simp only [natDigitsAux]
  by_cases hn : n < 10
  · rw [if_pos hn, if_pos hn]
  · rw [if_neg hn, if_neg hn,
      natDigitsAux_fuel n (n / 10 + 1) (n / 10) (by omega) (by omega)]
    rfl

theorem natDigits_ne_nil (n : Nat) : natDigits n ≠ [] := by
  rw [natDigits_eq]
  split <;> simp

theorem isDigit_digitChar (k : Nat) (h : k < 10) : isDigit (Nat.digitChar k) = true := by
  interval_cases k <;> decide

theorem natDigits_all_digits (n : Nat) : ∀ c ∈ natDigits n, isDigit c = true := by
  induction n using Nat.strong_induction_on with
  | _ n ih =>
    rw [natDigits_eq]
    split
    · next h => simpa using isDigit_digitChar n h
    · next h =>
      intro c hc
      rcases List.mem_append.mp hc with hc | hc
      · exact ih (n / 10) (Nat.div_lt_self (by omega) (by omega)) c hc
      · simp only [List.mem_singleton] at hc
        subst hc
        exact isDigit_digitChar (n % 10) (Nat.mod_lt _ (by omega))

theorem natDigits_head_ne_zero (n : Nat) (h1 : 1 ≤ n) :
    ∀ d ds, natDigits n = d :: ds → d ≠ '0' := by
  induction n using Nat.strong_induction_on with
  | _ n ih =>
    rw [natDigits_eq]
    split
    · next h =>
      intro d ds he
      simp only [List.cons.injEq] at he
      rw [← he.1]
      interval_cases n <;> decide
    · next h =>
      intro d ds he
      obtain ⟨d', ds', hd'⟩ := List.exists_cons_of_ne_nil (natDigits_ne_nil (n / 10))
      rw [hd'] at he
      simp only [List.cons_append, List.cons.injEq] at he
      rw [← he.1]
      exact ih (n / 10) (Nat.div_lt_self (by omega) (by omega)) (by omega) d' ds' hd'

theorem digitsVal_append (ds : List Char) (d : Char) :
    digitsVal (ds ++ [d]) = 10 * digitsVal ds + (d.toNat - 48) := by
  simp [digitsVal, List.foldl_append, Nat.mul_comm]

theorem digitsVal_digitChar (k : Nat) (h : k < 10) :
    (Nat.digitChar k).toNat - 48 = k := by
  interval_cases k <;> decide

theorem digitsVal_natDigits (n : Nat) : digitsVal (natDigits n) = n := by
  induction n using Nat.strong_induction_on with
  | _ n ih =>
    rw [natDigits_eq]
    split
    · next h =>
      have : digitsVal [Nat.digitChar n] = (Nat.digitChar n).toNat - 48 := by
        simp [digitsVal]
      rw [this, digitsVal_digitChar n h]
    · next h =>
      rw [digitsVal_append, ih (n / 10) (Nat.div_lt_self (by omega) (by omega)),
        digitsVal_digitChar (n % 10) (Nat.mod_lt _ (by omega))]
      omega

/-! ### Helper lemmas: number and string token parsing -/

theorem grabDigits_append (ds rest : List Char) (h1 : ∀ c ∈ ds, isDigit c = true)
    (h2 : noDigitHead rest = true) : grabDigits (ds ++ rest) = (ds, rest) := by
  induction ds with
  | nil =>
    simp only [List.nil_append]
    cases rest with
    | nil => rfl
    | cons c cs =>
      have : isDigit c = false := by simpa [noDigitHead] using h2
      simp [grabDigits, this]
  | cons c cs ih =>
    have hc : isDigit c = true := h1 c (by simp)
    have := ih (fun x hx => h1 x (by simp [hx]))
    simp [grabDigits, hc, this]

theorem parseNat_natDigits (m : Nat) (rest : List Char) (h : noDigitHead rest = true) :
    parseNat (natDigits m ++ rest) = some (m, rest) := by
  obtain ⟨d, ds, hd⟩ := List.exists_cons_of_ne_nil (natDigits_ne_nil m)
  have hall := natDigits_all_digits m
  have hgrab := grabDigits_append (natDigits m) rest hall h
  unfold parseNat
  rw [hgrab]
  simp only [hd]
  have hcond : (d = '0' && !ds.isEmpty) = false := by
    by_cases hm : m < 10
    · have : natDigits m = [Nat.digitChar m] := by rw [natDigits_eq, if_pos hm]
      rw [hd] at this
      simp only [List.cons.injEq] at this
      simp [this.2]
    · have hne := natDigits_head_ne_zero m (by omega) d ds hd
      simp [hne]
  rw [hcond]
  simp only [Bool.false_eq_true, if_false, ← hd, digitsVal_natDigits]

theorem isHex_digitChar (k : Nat) (h : k < 16) : isHex (Nat.digitChar k) = true := by
  interval_cases k <;> decide

theorem hexVal_digitChar (k : Nat) (h : k < 16) : hexVal (Nat.digitChar k) = k := by
  interval_cases k <;> decide

theorem psb_quote (rest : List Char) : parseStringBody ('"' :: rest) = some ([], rest) := by
  rw [parseStringBody.eq_def]
  simp

theorem psb_escape (e : Char) (rest : List Char) :
    parseStringBody ('\\' :: e :: rest) =
      (if e = '"' then consMap '"' (parseStringBody rest)
       else if e = '\\' then consMap '\\' (parseStringBody rest)
       else if e = '/' then consMap '/' (parseStringBody rest)
       else if e = 'b' then consMap '\x08' (parseStringBody rest)
       else if e = 'f' then consMap '\x0c' (parseStringBody rest)
       else if e = 'n' then consMap '\x0a' (parseStringBody rest)
       else if e = 'r' then consMap '\x0d' (parseStringBody rest)
       else if e = 't' then consMap '\x09' (parseStringBody rest)
       else if e = 'u' then
         match rest with
         | h1 :: h2 :: h3 :: h4 :: rest3 =>
           if isHex h1 && isHex h2 && isHex h3 && isHex h4 then
             consMap (Char.ofNat (((hexVal h1 * 16 + hexVal h2) * 16 + hexVal h3) * 16 + hexVal h4))
               (parseStringBody rest3)
           else none
         | _ => none
       else none) := by
  rw [parseStringBody.eq_def]
  simp

theorem psb_lit (c : Char) (rest : List Char) (h1 : c ≠ '"') (h2 : c ≠ '\\')
    (h3 : ¬c.toNat < 32) : parseStringBody (c :: rest) = consMap c (parseStringBody rest) := by
  rw [parseStringBody.eq_def]
  simp [h1, h2, h3]

theorem parseStringBody_escString (s : List Char) :
    ∀ rest, parseStringBody (escString s ++ '"' :: rest) = some (s, rest) := by
  induction s with
  | nil => intro rest; simp [escString, psb_quote]
  | cons c cs ih =>
    intro rest
    by_cases h1 : c = '"'
    · subst h1; simp [escString, escChar, psb_escape, consMap, ih]
    by_cases h2 : c = '\\'
    · subst h2; simp [escString, escChar, psb_escape, consMap, ih]
    by_cases h3 : c = '\x08'
    · subst h3; simp [escString, escChar, psb_escape, consMap, ih]
    by_cases h4 : c = '\x09'
    · subst h4; simp [escString, escChar, psb_escape, consMap, ih]
    by_cases h5 : c = '\x0a'
    · subst h5; simp [escString, escChar, psb_escape, consMap, ih]
    by_cases h6 : c = '\x0c'
    · subst h6; simp [escString, escChar, psb_escape, consMap, ih]
    by_cases h7 : c = '\x0d'
    · subst h7; simp [escString, escChar, psb_escape, consMap, ih]
    by_cases h8 : c.toNat < 32
    · have hesc : escChar c =
          ['\\', 'u', '0', '0', Nat.digitChar (c.toNat / 16), Nat.digitChar (c.toNat % 16)] := by
        simp [escChar, h1, h2, h3, h4, h5, h6, h7, h8]
      have hq : c.toNat / 16 < 16 := by omega
      have hr : c.toNat % 16 < 16 := by omega
      have hval : ((hexVal '0' * 16 + hexVal '0') * 16 + hexVal (Nat.digitChar (c.toNat / 16))) * 16
          + hexVal (Nat.digitChar (c.toNat % 16)) = c.toNat := by
        rw [hexVal_digitChar _ hq, hexVal_digitChar _ hr]
        have h0 : hexVal '0' = 0 := by decide
        rw [h0]
        omega
      rw [show escString (c :: cs) = escChar c ++ escString cs from rfl, hesc]
      simp only [List.cons_append, List.nil_append, List.append_assoc]
      rw [psb_escape]
      rw [if_neg (by decide : ('u' : Char) ≠ '"'), if_neg (by decide : ('u' : Char) ≠ '\\'),
        if_neg (by decide : ('u' : Char) ≠ '/'), if_neg (by decide : ('u' : Char) ≠ 'b'),
        if_neg (by decide : ('u' : Char) ≠ 'f'), if_neg (by decide : ('u' : Char) ≠ 'n'),
        if_neg (by decide : ('u' : Char) ≠ 'r'), if_neg (by decide : ('u' : Char) ≠ 't'),
        if_pos rfl]
      simp only [(by decide : isHex '0' = true), isHex_digitChar _ hq, isHex_digitChar _ hr,
        Bool.and_self, Bool.true_and, Bool.and_true, if_true, hval, Char.ofNat_toNat, ih, consMap]
    · have hesc : escChar c = [c] := by
        simp [escChar, h1, h2, h3, h4, h5, h6, h7, h8]
      rw [show escString (c :: cs) = escChar c ++ escString cs from rfl, hesc]
      simp only [List.cons_append, List.nil_append]
      rw [psb_lit c _ h1 h2 h8, ih rest, consMap]

/-! ### Dispatch lemmas for `parseVal` -/

theorem parseVal_n (fuel : Nat) (cs0 cs : List Char) (h : skipWs cs0 = 'n' :: cs) :
    parseVal (fuel + 1) cs0 =
      (match expectLit (toL "ull") cs with
       | some r => some (Json.null, r)
       | none => none) := by
  simp only [parseVal, h, if_true]

theorem parseVal_t (fuel : Nat) (cs0 cs : List Char) (h : skipWs cs0 = 't' :: cs) :
    parseVal (fuel + 1) cs0 =
      (match expectLit (toL "rue") cs with
       | some r => some (Json.bool true, r)
       | none => none) := by
  simp only [parseVal, h]
  simp

theorem parseVal_f (fuel : Nat) (cs0 cs : List Char) (h : skipWs cs0 = 'f' :: cs) :
    parseVal (fuel + 1) cs0 =
      (match expectLit (toL "alse") cs with
       | some r => some (Json.bool false, r)
       | none => none) := by
  simp only [parseVal, h]
  simp

theorem parseVal_q (fuel : Nat) (cs0 cs : List Char) (h : skipWs cs0 = '"' :: cs) :
    parseVal (fuel + 1) cs0 =
      (match parseStringBody cs with
       | some (s, r) => some (Json.str (String.mk s), r)
       | none => none) := by
  simp only [parseVal, h]
  simp

theorem parseVal_minus (fuel : Nat) (cs0 cs : List Char) (h : skipWs cs0 = '-' :: cs) :
    parseVal (fuel + 1) cs0 =
      (match parseNat cs with
       | some (m, r) => some (Json.num (-(m : Int)), r)
       | none => none) := by
  simp only [parseVal, h]
  simp

theorem parseVal_digitc (fuel : Nat) (cs0 cs : List Char) (c : Char) (hd : isDigit c = true)
    (h : skipWs cs0 = c :: cs) :
    parseVal (fuel + 1) cs0 =
      (match parseNat (c :: cs) with
       | some (m, r) => some (Json.num (m : Int), r)
       | none => none) := by
  obtain ⟨n1, n2, n3, n4, n5, _⟩ := isDigit_ne c hd
  simp only [parseVal, h, if_neg n1, if_neg n2, if_neg n3, if_neg n4, if_neg n5, if_pos hd]

theorem parseVal_lbrack (fuel : Nat) (cs0 cs : List Char) (h : skipWs cs0 = '[' :: cs) :
    parseVal (fuel + 1) cs0 =
      (match skipWs cs with
       | ']' :: r => some (Json.arr [], r)
       | cs1 =>
         match parseVal fuel cs1 with
         | some (v, r) =>
           match parseElems fuel r with
           | some (vs, r2) => some (Json.arr (v :: vs), r2)
           | none => none
         | none => none) := by
  simp only [parseVal, h]
  simp
  exact fun hc => absurd hc (by decide)

theorem parseVal_lbrace (fuel : Nat) (cs0 cs : List Char) (h : skipWs cs0 = '{' :: cs) :
    parseVal (fuel + 1) cs0 =
      (match skipWs cs with
       | '}' :: r => some (Json.obj [], r)
       | cs1 =>
         match parseMember fuel cs1 with
         | some (m, r) =>
           match parseMembers fuel r with
           | some (ms, r2) => some (Json.obj (m :: ms), r2)
           | none => none
         | none => none) := by
  simp only [parseVal, h]
  simp
  exact fun hc => absurd hc (by decide)

theorem parseMember_q (fuel : Nat) (cs0 cs : List Char) (h : skipWs cs0 = '"' :: cs) :
    parseMember (fuel + 1) cs0 =
      (match parseStringBody cs with
       | some (k, r) =>
         match skipWs r with
         | ':' :: r1 =>
           match parseVal fuel r1 with
           | some (v, r2) => some ((String.mk k, v), r2)
           | none => none
         | _ => none
       | none => none) := by
  simp only [parseMember, h, if_true]

/-! ### Shape of serialized values -/

theorem stringMk_data (s : String) : String.mk s.data = s := rfl

theorem serVal_head (v : Json) :
    ∃ c t, serVal v = c :: t ∧ isJsonWs c = false ∧ c ≠ ']' ∧ c ≠ '}' ∧ c ≠ ',' := by
  cases v with
  | null => exact ⟨'n', _, rfl, by decide, by decide, by decide, by decide⟩
  | bool b =>
    cases b with
    | true => exact ⟨'t', _, rfl, by decide, by decide, by decide, by decide⟩
    | false => exact ⟨'f', _, rfl, by decide, by decide, by decide, by decide⟩
  | num n =>
    by_cases hn : n < 0
    · refine ⟨'-', natDigits n.natAbs, ?_, by decide, by decide, by decide, by decide⟩
      show serInt n = _
      simp [serInt, hn]
    · obtain ⟨d, ds, hd⟩ := List.exists_cons_of_ne_nil (natDigits_ne_nil n.toNat)
      have hdig : isDigit d = true := natDigits_all_digits n.toNat d (by rw [hd]; simp)
      obtain ⟨_, _, _, _, _, _, _, w8, w9, w10, w11⟩ := isDigit_ne d hdig
      refine ⟨d, ds, ?_, w11, w8, w9, w10⟩
      show serInt n = _
      simp [serInt, hn, hd]
  | str s => exact ⟨'"', _, rfl, by decide, by decide, by decide, by decide⟩
  | arr l =>
    cases l with
    | nil => exact ⟨'[', _, rfl, by decide, by decide, by decide, by decide⟩
    | cons w ws => exact ⟨'[', _, rfl, by decide, by decide, by decide, by decide⟩
  | obj l =>
    cases l with
    | nil => exact ⟨'{', _, rfl, by decide, by decide, by decide, by decide⟩
    | cons m ms => exact ⟨'{', _, rfl, by decide, by decide, by decide, by decide⟩

theorem length_serVal_pos (v : Json) : 0 < (serVal v).length := by
  obtain ⟨c, t, hct, _⟩ := serVal_head v
  simp [hct]

theorem noDigitHead_elems (l : List Json) (rest : List Char) :
    noDigitHead (serElems l ++ ']' :: rest) = true := by
  cases l with
  | nil => simp [serElems, noDigitHead]; decide
  | cons w ws => simp [serElems, noDigitHead]; decide

theorem noDigitHead_members (l : List (String × Json)) (rest : List Char) :
    noDigitHead (serMembers l ++ '}' :: rest) = true := by
  cases l with
  | nil => simp [serMembers, noDigitHead]; decide
  | cons m ms => simp [serMembers, noDigitHead]; decide

theorem length_serMember_pos (m : String × Json) : 0 < (serMember m).length := by
  cases m with
  | mk k v => simp [serMember, serStr]

/-! ### Completeness: the parser accepts exactly what the serializer wrote -/

mutual

theorem parseVal_ser : ∀ (v : Json) (rest : List Char) (fuel : Nat),
    noDigitHead rest = true → (serVal v ++ rest).length < fuel →
    parseVal fuel (serVal v ++ rest) = some (v, rest)
  | Json.null, rest, fuel, _hnd, hlen => by
    cases fuel with
    | zero => omega
    | succ f =>
      show parseVal (f + 1) ('n' :: 'u' :: 'l' :: 'l' :: rest) = some (Json.null, rest)
      rw [parseVal_n f _ _ (skipWs_cons _ _ (by decide)),
        show ('u' :: 'l' :: 'l' :: rest) = toL "ull" ++ rest from rfl, expectLit_append]
  | Json.bool true, rest, fuel, _hnd, hlen => by
    cases fuel with
    | zero => omega
    | succ f =>
      show parseVal (f + 1) ('t' :: 'r' :: 'u' :: 'e' :: rest) = some (Json.bool true, rest)
      rw [parseVal_t f _ _ (skipWs_cons _ _ (by decide)),
        show ('r' :: 'u' :: 'e' :: rest) = toL "rue" ++ rest from rfl, expectLit_append]
  | Json.bool false, rest, fuel, _hnd, hlen => by
    cases fuel with
    | zero => omega
    | succ f =>
      show parseVal (f + 1) ('f' :: 'a' :: 'l' :: 's' :: 'e' :: rest) = some (Json.bool false, rest)
      rw [parseVal_f f _ _ (skipWs_cons _ _ (by decide)),
        show ('a' :: 'l' :: 's' :: 'e' :: rest) = toL "alse" ++ rest from rfl, expectLit_append]
  | Json.num n, rest, fuel, hnd, hlen => by
    cases fuel with
    | zero => omega
    | succ f =>
      by_cases hneg : n < 0
      · have hshape : serVal (Json.num n) ++ rest = '-' :: (natDigits n.natAbs ++ rest) := by
          show serInt n ++ rest = _
          simp only [serInt, if_pos hneg]
          rfl
        rw [hshape, parseVal_minus f _ _ (skipWs_cons _ _ (by decide)),
          parseNat_natDigits _ _ hnd]
        have hval : -((n.natAbs : Nat) : Int) = n := by omega
        show some (Json.num (-((n.natAbs : Nat) : Int)), rest) = some (Json.num n, rest)
        rw [hval]
      · obtain ⟨d, ds, hd⟩ := List.exists_cons_of_ne_nil (natDigits_ne_nil n.toNat)
        have hdig : isDigit d = true := natDigits_all_digits n.toNat d (by rw [hd]; simp)
        have hshape : serVal (Json.num n) ++ rest = d :: (ds ++ rest) := by
          show serInt n ++ rest = _
          simp only [serInt, if_neg hneg, hd]
          rfl
        obtain ⟨_, _, _, _, _, _, _, _, _, _, hws⟩ := isDigit_ne d hdig
        rw [hshape, parseVal_digitc f _ _ d hdig (skipWs_cons _ _ hws),
          show d :: (ds ++ rest) = natDigits n.toNat ++ rest from by simp [hd],
          parseNat_natDigits _ _ hnd]
        have hval : ((n.toNat : Nat) : Int) = n := Int.toNat_of_nonneg (by omega)
        show some (Json.num ((n.toNat : Nat) : Int), rest) = some (Json.num n, rest)
        rw [hval]
  | Json.str s, rest, fuel, _hnd, hlen => by
    cases fuel with
    | zero => omega
    | succ f =>
      have hshape : serVal (Json.str s) ++ rest = '"' :: (escString s.data ++ '"' :: rest) := by
        show ('"' :: (escString s.data ++ ['"'])) ++ rest = _
        simp
      rw [hshape, parseVal_q f _ _ (skipWs_cons _ _ (by decide)), parseStringBody_escString]
  | Json.arr [], rest, fuel, _hnd, hlen => by
    cases fuel with
    | zero => omega
    | succ f =>
      show parseVal (f + 1) ('[' :: (']' :: rest)) = some (Json.arr [], rest)
      rw [parseVal_lbrack f _ _ (skipWs_cons _ _ (by decide)), skipWs_cons _ _ (by decide)]
      rfl
  | Json.arr (w :: ws), rest, fuel, _hnd, hlen => by
    cases fuel with
    | zero => omega
    | succ f =>
      have hshape : serVal (Json.arr (w :: ws)) ++ rest
          = '[' :: (serVal w ++ (serElems ws ++ ']' :: rest)) := by
        show ('[' :: (serVal w ++ serElems ws ++ [']'])) ++ rest = _
        simp
      have hlen1 : (serVal w ++ (serElems ws ++ ']' :: rest)).length < f := by
        rw [hshape] at hlen
        simp only [List.length_cons, List.length_append] at hlen ⊢
        omega
      have hlen2 : (serElems ws ++ ']' :: rest).length < f := by
        have hw := length_serVal_pos w
        simp only [List.length_append] at hlen1 ⊢
        omega
      obtain ⟨c, t, hct, hws, hbr1, _hbr2, _hbr3⟩ := serVal_head w
      have hskip : skipWs (serVal w ++ (serElems ws ++ ']' :: rest))
          = serVal w ++ (serElems ws ++ ']' :: rest) := by
        rw [hct]
        simp only [List.cons_append]
        exact skipWs_cons _ _ hws
      rw [hshape, parseVal_lbrack f _ _ (skipWs_cons _ _ (by decide)), hskip, hct,
        List.cons_append]
      split
      · next r heq =>
        exact absurd (List.cons.inj heq).1 hbr1
      · rw [← List.cons_append, ← hct,
          parseVal_ser w (serElems ws ++ ']' :: rest) f (noDigitHead_elems ws rest) hlen1]
        simp only [parseElems_ser ws rest f hlen2]
  | Json.obj [], rest, fuel, _hnd, hlen => by
    cases fuel with
    | zero => omega
    | succ f =>
      show parseVal (f + 1) ('{' :: ('}' :: rest)) = some (Json.obj [], rest)
      rw [parseVal_lbrace f _ _ (skipWs_cons _ _ (by decide)), skipWs_cons _ _ (by decide)]
      rfl
  | Json.obj (m :: ms), rest, fuel, _hnd, hlen => by
    cases fuel with
    | zero => omega
    | succ f =>
      have hshape : serVal (Json.obj (m :: ms)) ++ rest
          = '{' :: (serMember m ++ (serMembers ms ++ '}' :: rest)) := by
        show ('{' :: (serMember m ++ serMembers ms ++ ['}'])) ++ rest = _
        simp
      have hlen1 : (serMember m ++ (serMembers ms ++ '}' :: rest)).length < f := by
        rw [hshape] at hlen
        simp only [List.length_cons, List.length_append] at hlen ⊢
        omega
      have hlen2 : (serMembers ms ++ '}' :: rest).length < f := by
        have hm := length_serMember_pos m
        simp only [List.length_append] at hlen1 ⊢
        omega
      have hmq : ∃ t, serMember m = '"' :: t := by
        cases m with
        | mk k v => exact ⟨_, rfl⟩
      obtain ⟨tm, htm⟩ := hmq
      have hskip : skipWs (serMember m ++ (serMembers ms ++ '}' :: rest))
          = serMember m ++ (serMembers ms ++ '}' :: rest) := by
        rw [htm]
        simp only [List.cons_append]
        exact skipWs_cons _ _ (by decide)
      rw [hshape, parseVal_lbrace f _ _ (skipWs_cons _ _ (by decide)), hskip, htm,
        List.cons_append]
      split
      · next r heq =>
        exact absurd (List.cons.inj heq).1 (by decide)
      · rw [← List.cons_append, ← htm,
          parseMember_ser m (serMembers ms ++ '}' :: rest) f (noDigitHead_members ms rest) hlen1]
        simp only [parseMembers_ser ms rest f hlen2]

theorem parseElems_ser : ∀ (l : List Json) (rest : List Char) (fuel : Nat),
    (serElems l ++ ']' :: rest).length < fuel →
    parseElems fuel (serElems l ++ ']' :: rest) = some (l, rest)
  | [], rest, fuel, hlen => by
    cases fuel with
    | zero => omega
    | succ f =>
      show parseElems (f + 1) (']' :: rest) = some ([], rest)
      simp only [parseElems, skipWs_cons _ _ (by decide : isJsonWs ']' = false)]
  | w :: ws, rest, fuel, hlen => by
    cases fuel with
    | zero => omega
    | succ f =>
      have hshape : serElems (w :: ws) ++ ']' :: rest
          = ',' :: (serVal w ++ (serElems ws ++ ']' :: rest)) := by
        show (',' :: (serVal w ++ serElems ws)) ++ ']' :: rest = _
        simp
      have hlen1 : (serVal w ++ (serElems ws ++ ']' :: rest)).length < f := by
        rw [hshape] at hlen
        simp only [List.length_cons, List.length_append] at hlen ⊢
        omega
      have hlen2 : (serElems ws ++ ']' :: rest).length < f := by
        have hw := length_serVal_pos w
        simp only [List.length_append] at hlen1 ⊢
        omega
      rw [hshape]
      simp only [parseElems, skipWs_cons _ _ (by decide : isJsonWs ',' = false)]
      rw [parseVal_ser w (serElems ws ++ ']' :: rest) f (noDigitHead_elems ws rest) hlen1]
      simp only [parseElems_ser ws rest f hlen2]

theorem parseMember_ser : ∀ (m : String × Json) (rest : List Char) (fuel : Nat),
    noDigitHead rest = true → (serMember m ++ rest).length < fuel →
    parseMember fuel (serMember m ++ rest) = some (m, rest)
  | (k, v), rest, fuel, hnd, hlen => by
    cases fuel with
    | zero => omega
    | succ f =>
      have hshape : serMember (k, v) ++ rest
          = '"' :: (escString k.data ++ '"' :: (':' :: (serVal v ++ rest))) := by
        show (serStr k.data ++ ':' :: serVal v) ++ rest = _
        simp [serStr]
      have hlenv : (serVal v ++ rest).length < f := by
        rw [hshape] at hlen
        simp only [List.length_cons, List.length_append] at hlen ⊢
        omega
      rw [hshape, parseMember_q f _ _ (skipWs_cons _ _ (by decide)), parseStringBody_escString]
      simp only [skipWs_cons _ _ (by decide : isJsonWs ':' = false),
        parseVal_ser v rest f hnd hlenv, stringMk_data]

theorem parseMembers_ser : ∀ (ms : List (String × Json)) (rest : List Char) (fuel : Nat),
    (serMembers ms ++ '}' :: rest).length < fuel →
    parseMembers fuel (serMembers ms ++ '}' :: rest) = some (ms, rest)
  | [], rest, fuel, hlen => by
    cases fuel with
    | zero => omega
    | succ f =>
      show parseMembers (f + 1) ('}' :: rest) = some ([], rest)
      simp only [parseMembers, skipWs_cons _ _ (by decide : isJsonWs '}' = false)]
  | m :: ms, rest, fuel, hlen => by
    cases fuel with
    | zero => omega
    | succ f =>
      have hshape : serMembers (m :: ms) ++ '}' :: rest
          = ',' :: (serMember m ++ (serMembers ms ++ '}' :: rest)) := by
        show (',' :: (serMember m ++ serMembers ms)) ++ '}' :: rest = _
        simp
      have hlen1 : (serMember m ++ (serMembers ms ++ '}' :: rest)).length < f := by
        rw [hshape] at hlen
        simp only [List.length_cons, List.length_append] at hlen ⊢
        omega
      have hlen2 : (serMembers ms ++ '}' :: rest).length < f := by
        have hm := length_serMember_pos m
        simp only [List.length_append] at hlen1 ⊢
        omega
      rw [hshape]
      simp only [parseMembers, skipWs_cons _ _ (by decide : isJsonWs ',' = false)]
      rw [parseMember_ser m (serMembers ms ++ '}' :: rest) f (noDigitHead_members ms rest) hlen1]
      simp only [parseMembers_ser ms rest f hlen2]

end

/-! ### `JSON.parse` inverts `JSON.stringify` -/

theorem noDigitHead_nil : noDigitHead [] = true := rfl

theorem JSON_parse_serVal (v : Json) : JSON_parse (serVal v) = Except.ok v := by
  have h := parseVal_ser v [] ((serVal v).length + 1) noDigitHead_nil
    (by simp [List.append_nil])
  rw [List.append_nil] at h
  unfold JSON_parse
  rw [h]
  rfl

theorem data_stringMk (cs : List Char) : (String.mk cs).data = cs := rfl

/-! ### Regex facts -/

theorem tryFenceAt_none (cs : List Char) (h : startsWithChars fenceLit cs = false) :
    tryFenceAt cs = none := by
  simp [tryFenceAt, h]

theorem startsWith_of_hasSeq_false (pat xs : List Char) (h : hasSeq pat xs = false) :
    startsWithChars pat xs = false := by
  cases xs with
  | nil => simpa [hasSeq] using h
  | cons c cs =>
    rw [hasSeq] at h
    exact (Bool.or_eq_false_iff.mp h).1

theorem hasSeq_tail (pat : List Char) (c : Char) (cs : List Char)
    (h : hasSeq pat (c :: cs) = false) : hasSeq pat cs = false := by
  rw [hasSeq] at h
  exact (Bool.or_eq_false_iff.mp h).2

theorem tryBraceAt_ne (c : Char) (cs : List Char) (h : c ≠ '{') :
    tryBraceAt (c :: cs) = none := by
  rw [tryBraceAt.eq_def]
  split
  · next heq => exact absurd (List.cons.inj heq).1 h
  · rfl

theorem startsWith_fence_of_lbrace (t : List Char) :
    startsWithChars fenceLit ('{' :: t) = false := by
  rw [show fenceLit = '`' :: '`' :: '`' :: 'j' :: 's' :: 'o' :: 'n' :: [] from rfl]
  rw [startsWithChars]
  simp

theorem jsMatchFirst_cons_lbrace (t : List Char) :
    jsMatchFirst ('{' :: t) =
      (match upToLastBrace ('{' :: t) with
       | some g => some (RegexMatch.brace g)
       | none => jsMatchFirst t) := by
  rw [jsMatchFirst, tryFenceAt_none _ (startsWith_fence_of_lbrace t)]
  rw [show tryBraceAt ('{' :: t) = upToLastBrace ('{' :: t) from rfl]

theorem jsMatchFirst_append_no (pre suffix : List Char)
    (hf : hasSeq fenceLit (pre ++ suffix) = false) (hb : ∀ c ∈ pre, c ≠ '{') :
    jsMatchFirst (pre ++ suffix) = jsMatchFirst suffix := by
  induction pre with
  | nil => rfl
  | cons c pre' ih =>
    rw [List.cons_append] at hf ⊢
    rw [jsMatchFirst, tryFenceAt_none _ (startsWith_of_hasSeq_false _ _ hf),
      tryBraceAt_ne c _ (hb c (by simp))]
    exact ih (hasSeq_tail _ _ _ hf) (fun x hx => hb x (by simp [hx]))

theorem dropWhile_append_of_all (p : Char → Bool) (xs ys : List Char)
    (h : ∀ x ∈ xs, p x = true) :
    List.dropWhile p (xs ++ ys) = List.dropWhile p ys := by
  induction xs with
  | nil => rfl
  | cons x xs ih =>
    rw [List.cons_append, List.dropWhile_cons, if_pos (h x (by simp))]
    exact ih (fun a ha => h a (by simp [ha]))

theorem upToLastBrace_split (xs post : List Char) (h : ∀ c ∈ post, c ≠ '}') :
    upToLastBrace (xs ++ '}' :: post) = some (xs ++ ['}']) := by
  unfold upToLastBrace
  have hrev : (xs ++ '}' :: post).reverse = post.reverse ++ '}' :: xs.reverse := by
    simp
  rw [hrev, dropWhile_append_of_all _ post.reverse _
    (fun c hc => by
      have : c ≠ '}' := h c (by simpa using hc)
      simp [this])]
  rw [List.dropWhile_cons]
  simp

/-! ### Shape of a stringified object and extraction of stringified objects -/

theorem serVal_obj_concat (l : List (String × Json)) :
    ∃ ys, serVal (Json.obj l) = ys ++ ['}'] := by
  cases l with
  | nil => exact ⟨['{'], rfl⟩
  | cons m ms =>
    refine ⟨'{' :: (serMember m ++ serMembers ms), ?_⟩
    show '{' :: (serMember m ++ serMembers ms ++ ['}']) = _
    simp

theorem serVal_obj_lbrace (l : List (String × Json)) :
    ∃ t, serVal (Json.obj l) = '{' :: t := by
  cases l with
  | nil => exact ⟨_, rfl⟩
  | cons m ms => exact ⟨_, rfl⟩

theorem upToLastBrace_concat (ys : List Char) :
    upToLastBrace (ys ++ ['}']) = some (ys ++ ['}']) := by
  have h := upToLastBrace_split ys [] (by simp)
  simpa using h

theorem extractJsonL_serVal_obj (l : List (String × Json)) :
    extractJsonL (serVal (Json.obj l)) = some (Json.obj l) := by
  obtain ⟨t, ht⟩ := serVal_obj_lbrace l
  obtain ⟨ys, hys⟩ := serVal_obj_concat l
  have hmatch : jsMatchFirst (serVal (Json.obj l))
      = some (RegexMatch.brace (serVal (Json.obj l))) := by
    rw [ht, jsMatchFirst_cons_lbrace, ← ht, hys, upToLastBrace_concat, ← hys]
  rw [extractJsonL, hmatch]
  show (match JSON_parse (serVal (Json.obj l)) with
    | Except.ok v => some v
    | Except.error _ => none) = some (Json.obj l)
  rw [JSON_parse_serVal]

/-! ### Success analysis of `displayResults` -/

theorem getProp_ok (o : Option Json) (k : String) (r : Option Json)
    (h : getProp o k = Except.ok r) :
    ∃ b, o = some b ∧ b ≠ Json.null ∧ r = getMember b k := by
  cases o with
  | none => simp [getProp] at h
  | some b =>
    cases b with
    | null => simp [getProp] at h
    | bool x => exact ⟨_, rfl, fun hh => Json.noConfusion hh, by simpa [getProp] using h.symm⟩
    | num x => exact ⟨_, rfl, fun hh => Json.noConfusion hh, by simpa [getProp] using h.symm⟩
    | str x => exact ⟨_, rfl, fun hh => Json.noConfusion hh, by simpa [getProp] using h.symm⟩
    | arr x => exact ⟨_, rfl, fun hh => Json.noConfusion hh, by simpa [getProp] using h.symm⟩
    | obj x => exact ⟨_, rfl, fun hh => Json.noConfusion hh, by simpa [getProp] using h.symm⟩

theorem displayResults_ok (data : Json) (view : RenderedView)
    (h : displayResults data = Except.ok view) :
    ∃ ns mac mic,
      nsOf data = some ns ∧ ns ≠ Json.null ∧
      macOf data = some mac ∧ mac ≠ Json.null ∧
      micOf data = some mic ∧ mic ≠ Json.null ∧
      view.totalCalories = totalCaloriesDisp (tcOf data) ∧
      view.protein = macroDisp (macValOf data "protein_g") ∧
      view.carbs = macroDisp (macValOf data "carbs_g") ∧
      view.fat = macroDisp (macValOf data "fat_g") ∧
      view.fiber = macroDisp (macValOf data "fiber_g") ∧
      view.sugar = microDisp (micValOf data "sugar_g") ∧
      view.sodium = microDisp (micValOf data "sodium_mg") := by
  by_cases hd : isNullJ data = true
  · simp [displayResults, hd] at h
  · simp only [displayResults, hd, Bool.false_eq_true, if_false] at h
    split at h
    case _ total_calories macronutrients micronutrients heq1 heq2 heq3 =>
      split at h
      case _ => exact absurd h (by simp)
      case _ cc hcc =>
        split at h
        case _ pg cg fg fbg heqp heqc heqf heqfb =>
          split at h
          case _ => exact absurd h (by simp)
          case _ its hits =>
            split at h
            case _ sg sd heqsg heqsd =>
              obtain ⟨ns, hns, hnsn, htc⟩ := getProp_ok _ _ _ heq1
              obtain ⟨ns2, hns2, _, hmac⟩ := getProp_ok _ _ _ heq2
              obtain ⟨ns3, hns3, _, hmic⟩ := getProp_ok _ _ _ heq3
              rw [hns] at hns2 hns3
              have hmac' : macronutrients = getMember ns "macronutrients" := by
                rw [hmac, ← Option.some.inj hns2]
              have hmic' : micronutrients = getMember ns "micronutrients" := by
                rw [hmic, ← Option.some.inj hns3]
              obtain ⟨mac, hmacv, hmacn, hpg⟩ := getProp_ok _ _ _ heqp
              obtain ⟨mac2, hmac2, _, hcg⟩ := getProp_ok _ _ _ heqc
              obtain ⟨mac3, hmac3, _, hfg⟩ := getProp_ok _ _ _ heqf
              obtain ⟨mac4, hmac4, _, hfbg⟩ := getProp_ok _ _ _ heqfb
              rw [hmacv] at hmac2 hmac3 hmac4
              have hcg' : cg = getMember mac "carbs_g" := by
                rw [hcg, ← Option.some.inj hmac2]
              have hfg' : fg = getMember mac "fat_g" := by
                rw [hfg, ← Option.some.inj hmac3]
              have hfbg' : fbg = getMember mac "fiber_g" := by
                rw [hfbg, ← Option.some.inj hmac4]
              obtain ⟨mic, hmicv, hmicn, hsg⟩ := getProp_ok _ _ _ heqsg
              obtain ⟨mic2, hmic2, _, hsd⟩ := getProp_ok _ _ _ heqsd
              rw [hmicv] at hmic2
              have hsd' : sd = getMember mic "sodium_mg" := by
                rw [hsd, ← Option.some.inj hmic2]
              have hmacOf : macOf data = some mac := by
                rw [macOf, nsOf, hns]
                show getMember ns "macronutrients" = some mac
                rw [← hmac', hmacv]
              have hmicOf : micOf data = some mic := by
                rw [micOf, nsOf, hns]
                show getMember ns "micronutrients" = some mic
                rw [← hmic', hmicv]
              have htcOf : tcOf data = total_calories := by
                rw [tcOf, nsOf, hns]
                show getMember ns "total_calories" = total_calories
                exact htc.symm
              have hmval : ∀ k, macValOf data k = getMember mac k := fun k => by
                rw [macValOf, hmacOf]
                rfl
              have hmicval : ∀ k, micValOf data k = getMember mic k := fun k => by
                rw [micValOf, hmicOf]
                rfl
              have hview := (Except.ok.injEq _ _).mp h
              refine ⟨ns, mac, mic, hns, hnsn, hmacOf, hmacn, hmicOf, hmicn, ?_, ?_, ?_, ?_, ?_, ?_, ?_⟩
              · rw [← hview]
                show totalCaloriesDisp total_calories = _
                rw [htcOf]
              · rw [← hview]
                show macroDisp pg = _
                rw [hmval, hpg]
              · rw [← hview]
                show macroDisp cg = _
                rw [hmval, hcg']
              · rw [← hview]
                show macroDisp fg = _
                rw [hmval, hfg']
              · rw [← hview]
                show macroDisp fbg = _
                rw [hmval, hfbg']
              · rw [← hview]
                show microDisp sg = _
                rw [hmicval, hsg]
              · rw [← hview]
                show microDisp sd = _
                rw [hmicval, hsd']
            case _ => exact absurd h (by simp)
        case _ => exact absurd h (by simp)
    case _ => exact absurd h (by simp)

/-! ### Error analysis of `displayResults` and run-level helpers -/

theorem displayResults_err (data : Json)
    (h : nsOf data = none ∨ nsOf data = some Json.null ∨ macOf data = none ∨
         macOf data = some Json.null ∨ micOf data = none ∨ micOf data = some Json.null) :
    displayResults data = Except.error () := by
  cases hres : displayResults data with
  | error e => cases e; rfl
  | ok view =>
    obtain ⟨ns, mac, mic, hns, hnsn, hmac, hmacn, hmic, hmicn, _⟩ :=
      displayResults_ok data view hres
    rcases h with h | h | h | h | h | h
    · rw [hns] at h; exact Option.noConfusion h
    · rw [hns] at h; exact absurd (Option.some.inj h) hnsn
    · rw [hmac] at h; exact Option.noConfusion h
    · rw [hmac] at h; exact absurd (Option.some.inj h) hmacn
    · rw [hmic] at h; exact Option.noConfusion h
    · rw [hmic] at h; exact absurd (Option.some.inj h) hmicn

theorem microDisp_some (v : Json) (h : v ≠ Json.null) : microDisp (some v) = jsToStr v := by
  cases v with
  | null => exact absurd rfl h
  | bool b => rfl
  | num n => rfl
  | str s => rfl
  | arr l => rfl
  | obj l => rfl

theorem analyzeImageOutcome_netErr (apiKey : String) (m : String)
    (hkey : apiKey ≠ guardPlaceholder) :
    analyzeImageOutcome apiKey (Except.error m)
      = Outcome.failureAlertReset ("Analysis failed: " ++ m) := by
  unfold analyzeImageOutcome
  rw [if_neg hkey]

theorem analyzeImageOutcome_notOk (apiKey : String) (resp : HttpResponse)
    (hkey : apiKey ≠ guardPlaceholder) (hok : resp.ok = false) :
    analyzeImageOutcome apiKey (Except.ok resp)
      = Outcome.failureAlertReset
          ("Analysis failed: API Error: " ++ toString resp.status ++ " " ++ resp.statusText) := by
  unfold analyzeImageOutcome
  rw [if_neg hkey]
  simp [hok]

theorem analyzeImageOutcome_extractNone (apiKey : String) (resp : HttpResponse) (data : Json)
    (text : String) (hkey : apiKey ≠ guardPlaceholder) (hok : resp.ok = true)
    (hbody : resp.body = some data)
    (hcontent : contentOf data = Except.ok (some (Json.str text)))
    (hext : extractJson text = none) :
    analyzeImageOutcome apiKey (Except.ok resp)
      = Outcome.failureAlertReset ("Analysis failed: " ++ parseFailMsg) := by
  unfold analyzeImageOutcome
  rw [if_neg hkey]
  simp [hok, hbody, hcontent, hext]

theorem analyzeImageRun_failure (apiKey : String) (fr : Except String HttpResponse)
    (s : AppState) (msg : String)
    (h : analyzeImageOutcome apiKey fr = Outcome.failureAlertReset msg) :
    analyzeImageRun apiKey fr s = resetToInitialView { s with alerts := s.alerts ++ [msg] } := by
  unfold analyzeImageRun
  rw [h]

theorem FullReset_resetToInitialView (s s2 : AppState)
    (hstream : s2.currentStream = s.currentStream) :
    FullReset s (resetToInitialView s2) := by
  refine ⟨rfl, ?_, rfl, rfl, rfl, rfl⟩
  intro ts hts t ht
  show t ∈ s2.stoppedTracks ++ (match s2.currentStream with | some ts => ts | none => [])
  rw [hstream, hts]
  exact List.mem_append_right _ ht

theorem alerts_resetToInitialView (s2 : AppState) :
    (resetToInitialView s2).alerts = s2.alerts := rfl

/-! ### Claim theorems -/

/-- C1 (code bug evidence): the spec says an unreplaced credential
placeholder blocks `analyzeImage` before any network request, with a
configuration alert and a reset.  The shipped placeholder (line 23 of
src/script.js, also named by the file's own deployment comment) is
`__NUTRI_AI_API_KEY__`, but the guard of line 144 compares against
`__API_KEY__`: the comparison is false, so the run does not take the
configuration branch — its outcome is decided by the fetch result (here a
network failure), proving the request was issued, and the alert shown is
the analysis-failure alert, not the configuration alert. -/
theorem C1_config_guard_never_fires :
    (API_KEY == guardPlaceholder) = false ∧
    analyzeImageOutcome API_KEY (Except.error "network failure")
      = Outcome.failureAlertReset "Analysis failed: network failure" ∧
    (analyzeImageRun API_KEY (Except.error "network failure")
        { currentStream := none, stoppedTracks := [], imagePreviewSrc := "",
          uploadInputValue := "", results := none, activeView := "loading-view",
          alerts := [] }).alerts
      = ["Analysis failed: network failure"] :=
  ⟨by decide, rfl, rfl⟩

/-- C2 (counterexample): the claim says the rendered total-calories field
shows the rounded integer whenever the value is a number, including 0.
On a result whose `nutrition_summary.total_calories` is the number 0, the
code's `Math.round(total_calories) || 'N/A'` treats the rounded 0 as
falsy and renders "N/A", not "0". -/
theorem C2_total_calories_counterexample :
    Except.map (fun v => v.totalCalories)
      (displayResults (Json.obj [("nutrition_summary", Json.obj
        [("total_calories", Json.num 0), ("macronutrients", Json.obj []),
         ("micronutrients", Json.obj [])])]))
      = Except.ok "N/A" := rfl

/-- C2 (amended): whenever `displayResults` succeeds, the rendered
total-calories field shows the rounded integer exactly when the value
coerces to a nonzero number, and shows the literal "N/A" when the value
is absent, fails numeric coercion (NaN), or rounds to 0 — the `||`
fallback treats 0 and NaN alike. -/
theorem C2_total_calories_amended (data : Json) (view : RenderedView)
    (h : displayResults data = Except.ok view) :
    (toNumberOpt (tcOf data) = none → view.totalCalories = "N/A") ∧
    (toNumberOpt (tcOf data) = some 0 → view.totalCalories = "N/A") ∧
    (∀ n : Int, toNumberOpt (tcOf data) = some n → n ≠ 0 →
      view.totalCalories = intToStr n) := by
  obtain ⟨ns, mac, mic, _, _, _, _, _, _, htc, _⟩ := displayResults_ok data view h
  refine ⟨?_, ?_, ?_⟩
  · intro hn
    rw [htc]
    simp [totalCaloriesDisp, hn]
  · intro hn
    rw [htc]
    simp [totalCaloriesDisp, hn]
  · intro n hn hne
    rw [htc]
    simp [totalCaloriesDisp, hn, hne]

/-- Witness for C2 (amended): a concrete result with total_calories 500
renders "500". -/
theorem C2_total_calories_amended_witness :
    displayResults (Json.obj [("nutrition_summary", Json.obj
      [("total_calories", Json.num 500), ("macronutrients", Json.obj []),
       ("micronutrients", Json.obj [])])])
      = Except.ok
          { totalCalories := "500", confidenceClass := "medium", confidence := "Medium",
            protein := "0", carbs := "0", fat := "0", fiber := "0",
            itemsHtml := ["No specific items identified."], sugar := "N/A", sodium := "N/A",
            healthTips := "Enjoy your meal mindfully!" } ∧
    RenderedView.totalCalories
        { totalCalories := "500", confidenceClass := "medium", confidence := "Medium",
          protein := "0", carbs := "0", fat := "0", fiber := "0",
          itemsHtml := ["No specific items identified."], sugar := "N/A", sodium := "N/A",
          healthTips := "Enjoy your meal mindfully!" }
      = intToStr 500 :=
  ⟨rfl,
    (C2_total_calories_amended
      (Json.obj [("nutrition_summary", Json.obj
        [("total_calories", Json.num 500), ("macronutrients", Json.obj []),
         ("micronutrients", Json.obj [])])])
      { totalCalories := "500", confidenceClass := "medium", confidence := "Medium",
        protein := "0", carbs := "0", fat := "0", fiber := "0",
        itemsHtml := ["No specific items identified."], sugar := "N/A", sodium := "N/A",
        healthTips := "Enjoy your meal mindfully!" }
      rfl).2.2 500 rfl (by decide)⟩

/-- C3 (counterexample): the claim says rendering succeeds with fallbacks
even when `nutrition_summary`, `macronutrients` or `micronutrients` is
absent.  In the code, `displayResults` throws on an object without
`nutrition_summary` (the destructuring of line 210) and on one whose
summary lacks the macronutrients container (the property access of line
223), rather than rendering. -/
theorem C3_container_absence_counterexample :
    displayResults (Json.obj []) = Except.error () ∧
    displayResults (Json.obj [("nutrition_summary", Json.obj [])]) = Except.error () :=
  ⟨rfl, rfl⟩

/-- C3 (amended): leaf fields may be absent and render with the
documented fallbacks, but the three containers are required: whenever
`nutrition_summary`, `macronutrients` or `micronutrients` is absent (or
null), `displayResults` throws (the caller's catch then alerts and
resets); with the three containers present and every leaf absent it
renders the all-fallback view. -/
theorem C3_container_absence_amended :
    (∀ data : Json,
      nsOf data = none ∨ nsOf data = some Json.null ∨ macOf data = none ∨
      macOf data = some Json.null ∨ micOf data = none ∨ micOf data = some Json.null →
      displayResults data = Except.error ()) ∧
    displayResults (Json.obj [("nutrition_summary", Json.obj
      [("macronutrients", Json.obj []), ("micronutrients", Json.obj [])])])
      = Except.ok
          { totalCalories := "N/A", confidenceClass := "medium", confidence := "Medium",
            protein := "0", carbs := "0", fat := "0", fiber := "0",
            itemsHtml := ["No specific items identified."], sugar := "N/A", sodium := "N/A",
            healthTips := "Enjoy your meal mindfully!" } :=
  ⟨fun data h => displayResults_err data h, rfl⟩

/-- Witness for C3 (amended): the empty object has no nutrition_summary,
and `displayResults` throws on it. -/
theorem C3_container_absence_amended_witness :
    (nsOf (Json.obj []) = none ∨ nsOf (Json.obj []) = some Json.null ∨
     macOf (Json.obj []) = none ∨ macOf (Json.obj []) = some Json.null ∨
     micOf (Json.obj []) = none ∨ micOf (Json.obj []) = some Json.null) ∧
    displayResults (Json.obj []) = Except.error () :=
  ⟨Or.inl rfl, C3_container_absence_amended.1 (Json.obj []) (Or.inl rfl)⟩

/-- C4 (counterexample): the claim says the extractor picks a
JSON-labeled fence when present, else the first brace-delimited object,
first match winning.  In the code the brace alternative is greedy: on
`{"a":1} x {"b":2}` it grabs from the first `{` to the LAST `}`, the grab
fails to parse, and extraction yields null even though the first
brace-delimited candidate `{"a":1}` is valid JSON; and on
`{x} ```json {"a":1} ``` ` the earlier brace position preempts the
labeled fence, so the fence is not selected either. -/
theorem C4_extractor_counterexample :
    extractJson "\x7b\"a\":1\x7d x \x7b\"b\":2\x7d" = none ∧
    JSON_parse (toL "\x7b\"a\":1\x7d") = Except.ok (Json.obj [("a", Json.num 1)]) ∧
    extractJson "\x7bx\x7d ```json \x7b\"a\":1\x7d ```" = none :=
  ⟨rfl, rfl, rfl⟩

/-- C4 (amended): at the earliest matching position the alternation wins;
when the text contains no JSON-labeled fence opener and a brace candidate
exists, the selected candidate spans greedily from the first `{` to the
last `}` of the whole text — not the first complete object — and the
extraction result is exactly `JSON.parse` of that greedy span (null when
it does not parse). -/
theorem C4_extractor_amended (pre mid post : List Char)
    (hpre : ∀ c ∈ pre, c ≠ '{') (hpost : ∀ c ∈ post, c ≠ '}')
    (hfence : hasSeq fenceLit (pre ++ '{' :: (mid ++ '}' :: post)) = false) :
    extractJsonL (pre ++ '{' :: (mid ++ '}' :: post))
      = (JSON_parse (('{' :: mid) ++ ['}'])).toOption := by
  unfold extractJsonL
  rw [jsMatchFirst_append_no pre ('{' :: (mid ++ '}' :: post)) hfence hpre,
    jsMatchFirst_cons_lbrace,
    show ('{' :: (mid ++ '}' :: post)) = ('{' :: mid) ++ '}' :: post from by simp,
    upToLastBrace_split ('{' :: mid) post hpost]
  show (match JSON_parse (('{' :: mid) ++ ['}']) with
    | Except.ok v => some v
    | Except.error _ => none) = (JSON_parse (('{' :: mid) ++ ['}'])).toOption
  cases JSON_parse (('{' :: mid) ++ ['}']) <;> rfl

/-- Witness for C4 (amended): on `x {"a":1} y` the greedy span is
`{"a":1}` itself and extraction parses it. -/
theorem C4_extractor_amended_witness :
    ((∀ c ∈ toL "x ", c ≠ '{') ∧ (∀ c ∈ toL " y", c ≠ '}') ∧
      hasSeq fenceLit (toL "x " ++ '{' :: (toL "\"a\":1" ++ '}' :: toL " y")) = false) ∧
    extractJsonL (toL "x " ++ '{' :: (toL "\"a\":1" ++ '}' :: toL " y"))
      = some (Json.obj [("a", Json.num 1)]) := by
  refine ⟨⟨by decide, by decide, by decide⟩, ?_⟩
  rw [C4_extractor_amended (toL "x ") (toL "\"a\":1") (toL " y")
    (by decide) (by decide) (by decide)]
  rfl

/-- C5: whenever the completion text yields no parsed JSON — no candidate
substring, or a candidate that fails to parse — `extractJson` returns
null and `analyzeImage` takes the same user-visible path as an inference
failure: the `Analysis failed:` alert and a full reset to the initial
view.  The first conjunct settles the spec's concrete example text, which
has no brace-delimited substring. -/
theorem C5_extraction_failure_path :
    extractJson "Sorry, I cannot help." = none ∧
    ∀ (apiKey : String) (resp : HttpResponse) (data : Json) (text : String) (s : AppState),
      apiKey ≠ guardPlaceholder → resp.ok = true → resp.body = some data →
      contentOf data = Except.ok (some (Json.str text)) → extractJson text = none →
      analyzeImageOutcome apiKey (Except.ok resp)
        = Outcome.failureAlertReset ("Analysis failed: " ++ parseFailMsg) ∧
      (analyzeImageRun apiKey (Except.ok resp) s).alerts
        = s.alerts ++ ["Analysis failed: " ++ parseFailMsg] ∧
      FullReset s (analyzeImageRun apiKey (Except.ok resp) s) := by
  refine ⟨rfl, ?_⟩
  intro apiKey resp data text s hkey hok hbody hcontent hext
  have hout := analyzeImageOutcome_extractNone apiKey resp data text hkey hok hbody hcontent hext
  have hrun := analyzeImageRun_failure apiKey (Except.ok resp) s _ hout
  refine ⟨hout, ?_, ?_⟩
  · rw [hrun, alerts_resetToInitialView]
  · rw [hrun]
    exact FullReset_resetToInitialView s _ rfl

/-- Witness for C5: a 200 response whose completion text is the spec's
"Sorry, I cannot help." produces the parse-failure alert. -/
theorem C5_extraction_failure_path_witness :
    ("k" ≠ guardPlaceholder ∧
      contentOf (Json.obj [("choices", Json.arr [Json.obj [("message",
          Json.obj [("content", Json.str "Sorry, I cannot help.")])]])])
        = Except.ok (some (Json.str "Sorry, I cannot help.")) ∧
      extractJson "Sorry, I cannot help." = none) ∧
    (analyzeImageRun "k"
        (Except.ok (HttpResponse.mk true 200 "OK"
          (some (Json.obj [("choices", Json.arr [Json.obj [("message",
            Json.obj [("content", Json.str "Sorry, I cannot help.")])]])]))))
        (AppState.mk (some [1, 2]) [] "img" "f.jpg" none "loading-view" [])).alerts
      = ["Analysis failed: " ++ parseFailMsg] := by
  refine ⟨⟨by decide, rfl, rfl⟩, ?_⟩
  have h := (C5_extraction_failure_path.2 "k"
    (HttpResponse.mk true 200 "OK"
      (some (Json.obj [("choices", Json.arr [Json.obj [("message",
        Json.obj [("content", Json.str "Sorry, I cannot help.")])]])])))
    (Json.obj [("choices", Json.arr [Json.obj [("message",
      Json.obj [("content", Json.str "Sorry, I cannot help.")])]])])
    "Sorry, I cannot help."
    (AppState.mk (some [1, 2]) [] "img" "f.jpg" none "loading-view" [])
    (by decide) rfl rfl rfl rfl).2.1
  simpa using h

/-- C6: whenever `displayResults` succeeds, each macronutrient whose value
is the number 0 — or is absent — renders as the value "0" (shown as "0g"
by the surrounding template), not as a textual fallback: the `|| 0`
default of lines 223-235 produces the same visible "0". -/
theorem C6_macros_zero_as_given (data : Json) (view : RenderedView)
    (h : displayResults data = Except.ok view) :
    ((macValOf data "protein_g" = some (Json.num 0) ∨ macValOf data "protein_g" = none) →
      view.protein = "0") ∧
    ((macValOf data "carbs_g" = some (Json.num 0) ∨ macValOf data "carbs_g" = none) →
      view.carbs = "0") ∧
    ((macValOf data "fat_g" = some (Json.num 0) ∨ macValOf data "fat_g" = none) →
      view.fat = "0") ∧
    ((macValOf data "fiber_g" = some (Json.num 0) ∨ macValOf data "fiber_g" = none) →
      view.fiber = "0") := by
  obtain ⟨ns, mac, mic, _, _, _, _, _, _, _, hp, hc, hf, hfb, _, _⟩ :=
    displayResults_ok data view h
  refine ⟨?_, ?_, ?_, ?_⟩
  · intro hv; rw [hp]; rcases hv with hv | hv <;> rw [hv] <;> rfl
  · intro hv; rw [hc]; rcases hv with hv | hv <;> rw [hv] <;> rfl
  · intro hv; rw [hf]; rcases hv with hv | hv <;> rw [hv] <;> rfl
  · intro hv; rw [hfb]; rcases hv with hv | hv <;> rw [hv] <;> rfl

/-- Witness for C6: a result whose protein_g is literally 0 renders the
value "0". -/
theorem C6_macros_zero_as_given_witness :
    displayResults (Json.obj [("nutrition_summary", Json.obj
      [("macronutrients", Json.obj [("protein_g", Json.num 0)]),
       ("micronutrients", Json.obj [])])])
      = Except.ok
          { totalCalories := "N/A", confidenceClass := "medium", confidence := "Medium",
            protein := "0", carbs := "0", fat := "0", fiber := "0",
            itemsHtml := ["No specific items identified."], sugar := "N/A", sodium := "N/A",
            healthTips := "Enjoy your meal mindfully!" } ∧
    macValOf (Json.obj [("nutrition_summary", Json.obj
      [("macronutrients", Json.obj [("protein_g", Json.num 0)]),
       ("micronutrients", Json.obj [])])]) "protein_g" = some (Json.num 0) ∧
    RenderedView.protein
        { totalCalories := "N/A", confidenceClass := "medium", confidence := "Medium",
          protein := "0", carbs := "0", fat := "0", fiber := "0",
          itemsHtml := ["No specific items identified."], sugar := "N/A", sodium := "N/A",
          healthTips := "Enjoy your meal mindfully!" }
      = "0" :=
  ⟨rfl, rfl,
    (C6_macros_zero_as_given
      (Json.obj [("nutrition_summary", Json.obj
        [("macronutrients", Json.obj [("protein_g", Json.num 0)]),
         ("micronutrients", Json.obj [])])])
      { totalCalories := "N/A", confidenceClass := "medium", confidence := "Medium",
        protein := "0", carbs := "0", fat := "0", fiber := "0",
        itemsHtml := ["No specific items identified."], sugar := "N/A", sodium := "N/A",
        healthTips := "Enjoy your meal mindfully!" }
      rfl).1 (Or.inl rfl)⟩

/-- C7: whenever `displayResults` succeeds, each micronutrient renders by
the null-coalescing `?? 'N/A'` of lines 245-246: an absent value renders
as the literal "N/A", while any present non-null value — including the
number 0, which renders "0" — renders as its JS string conversion, never
as the fallback. -/
theorem C7_micros_null_coalescing (data : Json) (view : RenderedView)
    (h : displayResults data = Except.ok view) :
    (micValOf data "sugar_g" = some (Json.num 0) → view.sugar = "0") ∧
    (micValOf data "sugar_g" = none → view.sugar = "N/A") ∧
    (∀ v, micValOf data "sugar_g" = some v → v ≠ Json.null → view.sugar = jsToStr v) ∧
    (micValOf data "sodium_mg" = some (Json.num 0) → view.sodium = "0") ∧
    (micValOf data "sodium_mg" = none → view.sodium = "N/A") ∧
    (∀ v, micValOf data "sodium_mg" = some v → v ≠ Json.null → view.sodium = jsToStr v) := by
  obtain ⟨ns, mac, mic, _, _, _, _, _, _, _, _, _, _, _, hsg, hsd⟩ :=
    displayResults_ok data view h
  have hzero : microDisp (some (Json.num 0)) = "0" := by
    rw [microDisp_some (Json.num 0) (fun hh => Json.noConfusion hh)]
    simp [jsToStr, jsToStrV]
    rfl
  refine ⟨?_, ?_, ?_, ?_, ?_, ?_⟩
  · intro hv; rw [hsg, hv, hzero]
  · intro hv; rw [hsg, hv]; rfl
  · intro v hv hvn; rw [hsg, hv, microDisp_some v hvn]
  · intro hv; rw [hsd, hv, hzero]
  · intro hv; rw [hsd, hv]; rfl
  · intro v hv hvn; rw [hsd, hv, microDisp_some v hvn]

/-- Witness for C7: a result with no sodium_mg renders the literal "N/A"
for sodium (and not "0"). -/
theorem C7_micros_null_coalescing_witness :
    displayResults (Json.obj [("nutrition_summary", Json.obj
      [("macronutrients", Json.obj []), ("micronutrients", Json.obj [])])])
      = Except.ok
          { totalCalories := "N/A", confidenceClass := "medium", confidence := "Medium",
            protein := "0", carbs := "0", fat := "0", fiber := "0",
            itemsHtml := ["No specific items identified."], sugar := "N/A", sodium := "N/A",
            healthTips := "Enjoy your meal mindfully!" } ∧
    micValOf (Json.obj [("nutrition_summary", Json.obj
      [("macronutrients", Json.obj []), ("micronutrients", Json.obj [])])]) "sodium_mg"
      = none ∧
    RenderedView.sodium
        { totalCalories := "N/A", confidenceClass := "medium", confidence := "Medium",
          protein := "0", carbs := "0", fat := "0", fiber := "0",
          itemsHtml := ["No specific items identified."], sugar := "N/A", sodium := "N/A",
          healthTips := "Enjoy your meal mindfully!" }
      = "N/A" :=
  ⟨rfl, rfl,
    (C7_micros_null_coalescing
      (Json.obj [("nutrition_summary", Json.obj
        [("macronutrients", Json.obj []), ("micronutrients", Json.obj [])])])
      { totalCalories := "N/A", confidenceClass := "medium", confidence := "Medium",
        protein := "0", carbs := "0", fat := "0", fiber := "0",
        itemsHtml := ["No specific items identified."], sugar := "N/A", sodium := "N/A",
        healthTips := "Enjoy your meal mindfully!" }
      rfl).2.2.2.2.1 rfl⟩

/-- C8: extraction is idempotent on objects — if `extractJson` succeeds on
some text with an object value, re-running it on `JSON.stringify` of that
value succeeds with the same value: the serialization starts at its first
character with `{` and ends with its last `}`, so the greedy brace
alternative captures exactly the whole serialization, which parses back
to the same value. -/
theorem C8_extract_idempotent_on_objects (text : String) (v : Json)
    (l : List (String × Json)) (hext : extractJson text = some v) (hobj : v = Json.obj l) :
    extractJson (JSON_stringify v) = some v := by
  subst hobj
  show extractJsonL (String.mk (serVal (Json.obj l))).data = some (Json.obj l)
  rw [data_stringMk]
  exact extractJsonL_serVal_obj l

/-- Witness for C8: extraction from `x {"a":1}` yields an object, and
re-extraction from its serialization yields the same object. -/
theorem C8_extract_idempotent_on_objects_witness :
    extractJson "x \x7b\"a\":1\x7d" = some (Json.obj [("a", Json.num 1)]) ∧
    extractJson (JSON_stringify (Json.obj [("a", Json.num 1)]))
      = some (Json.obj [("a", Json.num 1)]) :=
  ⟨rfl,
    C8_extract_idempotent_on_objects "x \x7b\"a\":1\x7d" (Json.obj [("a", Json.num 1)])
      [("a", Json.num 1)] rfl rfl⟩

/-- C9: when the fetch rejects (network failure) or resolves with a
non-success status, the user gets the `Analysis failed:` alert — carrying
the rejection detail, or the status code and status text — and the
pipeline performs a full reset: stream cleared with all of its tracks
stopped, preview and file input emptied, results cleared, initial view
shown. -/
theorem C9_transport_failure_resets (apiKey : String) (s : AppState)
    (hkey : apiKey ≠ guardPlaceholder) :
    (∀ m : String,
      (analyzeImageRun apiKey (Except.error m) s).alerts
        = s.alerts ++ ["Analysis failed: " ++ m] ∧
      FullReset s (analyzeImageRun apiKey (Except.error m) s)) ∧
    (∀ resp : HttpResponse, resp.ok = false →
      (analyzeImageRun apiKey (Except.ok resp) s).alerts
        = s.alerts ++ ["Analysis failed: API Error: " ++ toString resp.status ++ " "
            ++ resp.statusText] ∧
      FullReset s (analyzeImageRun apiKey (Except.ok resp) s)) := by
  constructor
  · intro m
    have hout := analyzeImageOutcome_netErr apiKey m hkey
    have hrun := analyzeImageRun_failure apiKey (Except.error m) s _ hout
    exact ⟨by rw [hrun, alerts_resetToInitialView],
      by rw [hrun]; exact FullReset_resetToInitialView s _ rfl⟩
  · intro resp hok
    have hout := analyzeImageOutcome_notOk apiKey resp hkey hok
    have hrun := analyzeImageRun_failure apiKey (Except.ok resp) s _ hout
    exact ⟨by rw [hrun, alerts_resetToInitialView],
      by rw [hrun]; exact FullReset_resetToInitialView s _ rfl⟩

/-- Witness for C9: a simulated HTTP 500 alerts with the status detail and
resets a state that had an active stream and a captured image. -/
theorem C9_transport_failure_resets_witness :
    ("k" ≠ guardPlaceholder ∧ (HttpResponse.mk false 500 "Server Error" none).ok = false) ∧
    (analyzeImageRun "k" (Except.ok (HttpResponse.mk false 500 "Server Error" none))
        (AppState.mk (some [1, 2]) [] "img" "f.jpg" none "loading-view" [])).alerts
      = ["Analysis failed: API Error: 500 Server Error"] ∧
    (analyzeImageRun "k" (Except.ok (HttpResponse.mk false 500 "Server Error" none))
        (AppState.mk (some [1, 2]) [] "img" "f.jpg" none "loading-view" [])).currentStream
      = none ∧
    (2 : Nat) ∈ (analyzeImageRun "k"
        (Except.ok (HttpResponse.mk false 500 "Server Error" none))
        (AppState.mk (some [1, 2]) [] "img" "f.jpg" none "loading-view" [])).stoppedTracks := by
  have h := (C9_transport_failure_resets "k"
    (AppState.mk (some [1, 2]) [] "img" "f.jpg" none "loading-view" []) (by decide)).2
    (HttpResponse.mk false 500 "Server Error" none) rfl
  refine ⟨⟨by decide, rfl⟩, ?_, h.2.1, ?_⟩
  · simpa using h.1
  · exact h.2.2.1 [1, 2] rfl 2 (by decide)

/-- C10: `extractJson` is a total function into `Option`: on every text it
returns either a parsed value or null, and each internal failure — no
regex match, an empty fenced group (making `match[1] || match[2]` the
undefined `match[2]`, whose `JSON.parse` throws), or a candidate that
fails to parse — is caught and reported as null rather than escaping to
the caller. -/
theorem C10_extractJson_never_throws (text : List Char) :
    (jsMatchFirst text = none → extractJsonL text = none) ∧
    (∀ m, jsMatchFirst text = some m → jsonStringOf m = none → extractJsonL text = none) ∧
    (∀ m cand e, jsMatchFirst text = some m → jsonStringOf m = some cand →
      JSON_parse cand = Except.error e → extractJsonL text = none) := by
  refine ⟨?_, ?_, ?_⟩
  · intro h
    simp [extractJsonL, h]
  · intro m h1 h2
    simp [extractJsonL, h1, h2]
  · intro m cand e h1 h2 h3
    simp [extractJsonL, h1, h2, h3]

/-- Witness for C10: `{oops}` matches the brace alternative but its
candidate is not valid JSON; the parse error is caught and the result is
null. -/
theorem C10_extractJson_never_throws_witness :
    jsMatchFirst (toL "\x7boops\x7d") = some (RegexMatch.brace (toL "\x7boops\x7d")) ∧
    jsonStringOf (RegexMatch.brace (toL "\x7boops\x7d")) = some (toL "\x7boops\x7d") ∧
    JSON_parse (toL "\x7boops\x7d") = Except.error "SyntaxError: invalid JSON" ∧
    extractJsonL (toL "\x7boops\x7d") = none :=
  ⟨rfl, rfl, rfl,
    (C10_extractJson_never_throws (toL "\x7boops\x7d")).2.2
      (RegexMatch.brace (toL "\x7boops\x7d")) (toL "\x7boops\x7d")
      "SyntaxError: invalid JSON" rfl rfl rfl⟩

end NutriAI
